import Mathlib

/-!
Verification of the fallback download-orchestration core of the
`insta-reel` repository (UrlService, CacheService, RateLimitManager,
YtDlpStrategy, GalleryDlStrategy, DownloadOrchestrator).

The JavaScript source is shallowly embedded: strings are `String`
(lists of characters), JS numbers used as timestamps/counters are `Int`
and `Nat`, external effects (the redis client and the two command-line
tools) are parameters of a `World` record, and the stateful orchestrator
is explicit state passing over a store together with an event trace.
Regular-expression matching in the source is embedded by direct
scanners that implement the exact patterns appearing in the code,
with JS backtracking semantics reproduced where observable.
Logging and the `metrics` counters of the orchestrator are not
modelled (they are write-only observability state); the
`RateLimitManager`'s time-based bookkeeping is modelled on its own
(it only delays execution, it never changes any outcome).
-/

namespace InstaReel

/-! ## Character and list utilities -/

/-- ASCII lower-casing, as `String.prototype.toLowerCase` acts on the
ASCII texts handled by this program. -/
def asciiLower (c : Char) : Char :=
  if 65 ≤ c.toNat ∧ c.toNat ≤ 90 then Char.ofNat (c.toNat + 32) else c

def lowerChars (cs : List Char) : List Char := cs.map asciiLower

/-- Case-insensitive match of one input character `c` against a pattern
character `p` (all regex literals in the source are lower-case ASCII,
and every pattern carries the `i` flag). -/
def charCI (p c : Char) : Bool :=
  c == p || ((97 ≤ p.toNat && p.toNat ≤ 122) && c.toNat == p.toNat - 32)

/-- Strip a case-insensitively matching literal prefix, returning the rest. -/
def ciStrip : List Char → List Char → Option (List Char)
  | [], cs => some cs
  | _ :: _, [] => none
  | p :: ps, c :: cs => if charCI p c then ciStrip ps cs else none

def isPrefixChars : List Char → List Char → Bool
  | [], _ => true
  | _ :: _, [] => false
  | p :: ps, c :: cs => p == c && isPrefixChars ps cs

/-- `hay.includes(needle)` of JS, case sensitive. -/
def containsChars (needle : List Char) : List Char → Bool
  | [] => isPrefixChars needle []
  | c :: cs => isPrefixChars needle (c :: cs) || containsChars needle cs

def strIncludes (needle hay : String) : Bool := containsChars needle.data hay.data

/-- The whitespace recognised by `String.prototype.trim` (ASCII part). -/
def isWsChar (c : Char) : Bool := c == ' ' || c == '\t' || c == '\n' || c == '\r'

/-- `String.prototype.trim`: drop leading and trailing whitespace. -/
def trimChars (cs : List Char) : List Char :=
  ((cs.dropWhile isWsChar).reverse.dropWhile isWsChar).reverse

/-- `String.prototype.split(sep)` for a one-character separator. -/
def splitOnChar (sep : Char) : List Char → List (List Char)
  | [] => [[]]
  | c :: cs =>
    let r := splitOnChar sep cs
    if c == sep then [] :: r
    else
      match r with
      | [] => [[c]]
      | h :: t => (c :: h) :: t

/-! ## UrlService -/

/-- The capture character class `[A-Za-z0-9_-]` of `normalizeUrl`. -/
def isIdChar (c : Char) : Bool :=
  (65 ≤ c.toNat && c.toNat ≤ 90) || (97 ≤ c.toNat && c.toNat ≤ 122) ||
  (48 ≤ c.toNat && c.toNat ≤ 57) || c == '_' || c == '-'

/-- The capture character class `[^\/?#]` of `extractCacheKey`. -/
def isKeyChar (c : Char) : Bool := !(c == '/' || c == '?' || c == '#')

/-- Try `\/reels?\/([A-Za-z0-9_-]+)` at the head of the input.  The
greedy `s?` of the source regex is reproduced: the literal `/reels/` is
tried first and `/reel/` only when it fails (when `/reels/` matches as a
literal but the capture is empty, backtracking into `/reel/` cannot
succeed either, because the sixth character is then an `s`). -/
def reelIdAt (cs : List Char) : Option (List Char) :=
  match ciStrip "/reels/".data cs with
  | some rest =>
    let cap := rest.takeWhile isIdChar
    if cap.isEmpty then none else some cap
  | none =>
    match ciStrip "/reel/".data cs with
    | some rest =>
      let cap := rest.takeWhile isIdChar
      if cap.isEmpty then none else some cap
    | none => none

/-- Leftmost match of `\/reels?\/([A-Za-z0-9_-]+)/i`, the regex of
`UrlService.normalizeUrl`. -/
def scanReelId : List Char → Option (List Char)
  | [] => none
  | c :: cs => (reelIdAt (c :: cs)).orElse (fun _ => scanReelId cs)

/-- Try `\/p\/([^\/?#]+)` at the head of the input. -/
def pIdAt (cs : List Char) : Option (List Char) :=
  match ciStrip "/p/".data cs with
  | some rest =>
    let cap := rest.takeWhile isKeyChar
    if cap.isEmpty then none else some cap
  | none => none

/-- Leftmost match of `\/p\/([^\/?#]+)/i` (first pattern of
`UrlService.extractCacheKey`). -/
def scanPId : List Char → Option (List Char)
  | [] => none
  | c :: cs => (pIdAt (c :: cs)).orElse (fun _ => scanPId cs)

/-- Try `\/reels?\/([^\/?#]+)` at the head of the input (second pattern
of `UrlService.extractCacheKey`; capture class differs from the one in
`normalizeUrl`). -/
def reelKeyAt (cs : List Char) : Option (List Char) :=
  match ciStrip "/reels/".data cs with
  | some rest =>
    let cap := rest.takeWhile isKeyChar
    if cap.isEmpty then none else some cap
  | none =>
    match ciStrip "/reel/".data cs with
    | some rest =>
      let cap := rest.takeWhile isKeyChar
      if cap.isEmpty then none else some cap
    | none => none

def scanReelKey : List Char → Option (List Char)
  | [] => none
  | c :: cs => (reelKeyAt (c :: cs)).orElse (fun _ => scanReelKey cs)

/-- Try `\/stories\/([^\/?#\/]+)\/([^\/?#\/]+)` at the head of the
input.  The first capture is greedy, so it runs to the next `/`, `?`,
`#` or the end of the string; a `/` must follow, then a nonempty second
capture. -/
def storyAt (cs : List Char) : Option (List Char × List Char) :=
  match ciStrip "/stories/".data cs with
  | some rest =>
    let a := rest.takeWhile isKeyChar
    if a.isEmpty then none
    else
      match rest.dropWhile isKeyChar with
      | c :: r2 =>
        if c == '/' then
          let b := r2.takeWhile isKeyChar
          if b.isEmpty then none else some (a, b)
        else none
      | [] => none
  | none => none

def scanStory : List Char → Option (List Char × List Char)
  | [] => none
  | c :: cs => (storyAt (c :: cs)).orElse (fun _ => scanStory cs)

/-- UTF-8 encoding of one character (`Buffer.from(url)`). -/
def utf8Char (c : Char) : List Nat :=
  let n := c.toNat
  if n < 128 then [n]
  else if n < 2048 then [192 + n / 64, 128 + n % 64]
  else if n < 65536 then [224 + n / 4096, 128 + (n / 64) % 64, 128 + n % 64]
  else [240 + n / 262144, 128 + (n / 4096) % 64, 128 + (n / 64) % 64, 128 + n % 64]

def utf8Bytes (cs : List Char) : List Nat := cs.flatMap utf8Char

def b64Digit (n : Nat) : Char :=
  "ABCDEFGHIJKLMNOPQRSTUVWXYZabcdefghijklmnopqrstuvwxyz0123456789+/".data.getD n 'A'

/-- Standard base64 rendering of a byte list (`.toString('base64')`). -/
def b64Chars : List Nat → List Char
  | [] => []
  | [a] => [b64Digit (a / 4), b64Digit ((a % 4) * 16), '=', '=']
  | [a, b] => [b64Digit (a / 4), b64Digit ((a % 4) * 16 + b / 16), b64Digit ((b % 16) * 4), '=']
  | a :: b :: c :: rest =>
    b64Digit (a / 4) :: b64Digit ((a % 4) * 16 + b / 16) ::
    b64Digit ((b % 16) * 4 + c / 64) :: b64Digit (c % 64) :: b64Chars rest

/-- `UrlService.INSTAGRAM_URL_REGEX.test`, i.e.
`^https?:\/\/(www\.)?instagram\.com\/(p|reel|reels|stories)\/[^\/]+(?:\/[^\/?#]+)?/i`.
Since only `.test` is used, the trailing optional group never decides
success, so the test holds exactly when the mandatory prefix up to
`[^\/]+` matches. -/
def igTest (cs : List Char) : Bool :=
  match ciStrip "http".data cs with
  | none => false
  | some r1 =>
    match (ciStrip "s://".data r1).orElse (fun _ => ciStrip "://".data r1) with
    | none => false
    | some r2 =>
      let r3 := match ciStrip "www.".data r2 with
        | some x => x
        | none => r2
      match ciStrip "instagram.com/".data r3 with
      | none => false
      | some r4 =>
        match ((ciStrip "p/".data r4).orElse (fun _ =>
               (ciStrip "reels/".data r4).orElse (fun _ =>
               (ciStrip "reel/".data r4).orElse (fun _ =>
               ciStrip "stories/".data r4)))) with
        | none => false
        | some r5 =>
          match r5 with
          | [] => false
          | c :: _ => !(c == '/')

/-- `UrlService.isValidInstagramUrl`. -/
def isValidInstagramUrl (url : String) : Bool :=
  igTest (trimChars url.data)

/-- `UrlService.normalizeUrl`. -/
def normalizeUrl (url : String) : String :=
  let t := trimChars url.data
  match scanReelId t with
  | some cap => String.mk ("https://www.instagram.com/p/".data ++ cap ++ ['/'])
  | none => String.mk t

/-- `UrlService.extractCacheKey`. -/
def extractCacheKey (url : String) : String :=
  match (scanPId url.data).orElse (fun _ => scanReelKey url.data) with
  | some cap => String.mk ("post_".data ++ cap)
  | none =>
    match scanStory url.data with
    | some (a, b) => String.mk ("story_".data ++ a ++ '_' :: b)
    | none => String.mk ("url_".data ++ (b64Chars (utf8Bytes url.data)).take 32)

/-- `UrlService.getUrlType`. -/
def getUrlType (url : String) : String :=
  if containsChars "/p/".data url.data then "post"
  else if containsChars "/reel".data url.data then "reel"
  else if containsChars "/stories/".data url.data then "story"
  else "unknown"

/-! ## Tool strategies: output parsing -/

/-- The error object produced by a failed `execFileAsync` call (non-zero
exit or timeout): its `message` and captured `stderr`. -/
structure JsError where
  message : String
  stderr : String
deriving DecidableEq

/-- Result of one external process invocation. -/
inductive ExecResult where
  | ok (stdout : String)
  | err (e : JsError)
deriving DecidableEq

/-- `stdout.trim().split('\n').map(line => line.trim())`. -/
def linesOf (stdout : String) : List (List Char) :=
  (splitOnChar '\n' (trimChars stdout.data)).map trimChars

/-- `/^https?:\/\//i.test(line)`. -/
def isHttpLine (l : List Char) : Bool :=
  match ciStrip "http".data l with
  | none => false
  | some r => ((ciStrip "s://".data r).orElse (fun _ => ciStrip "://".data r)).isSome

/-- `YtDlpStrategy._extractDownloadUrl`: keep the lines matching the URL
pattern and return `urls[urls.length - 1]`. -/
def extractDownloadUrl (stdout : String) : Option String :=
  if stdout == "" then none
  else
    let urls := (linesOf stdout).filter isHttpLine
    if urls.length == 0 then none else (urls[urls.length - 1]?).map String.mk

def videoExtensions : List String := [".mp4", ".mov", ".avi", ".webm", ".mkv"]

/-- `GalleryDlStrategy._isVideoUrl`. -/
def isVideoUrlB (l : List Char) : Bool :=
  let low := lowerChars l
  videoExtensions.any (fun ext => containsChars ext.data low) ||
    containsChars "video".data low || containsChars "scontent".data low ||
    containsChars "cdninstagram".data low

/-- `GalleryDlStrategy._extractDirectUrl`: keep the lines matching the
URL pattern and the video heuristic, return `urls[0]`. -/
def extractDirectUrl (stdout : String) : Option String :=
  if stdout == "" then none
  else
    let urls := ((linesOf stdout).filter isHttpLine).filter isVideoUrlB
    if urls.length == 0 then none else (urls[0]?).map String.mk

/-! ## A small JSON model for `_extractUrlFromJson`

`JSON.parse` is embedded by a recursive-descent reader over the
characters of one output line.  Numbers are kept as their raw text
(their numeric value is only ever consulted for truthiness). -/

inductive JVal where
  | jnull
  | jbool (b : Bool)
  | jnum (raw : List Char)
  | jstr (s : List Char)
  | jarr (xs : List JVal)
  | jobj (fs : List (List Char × JVal))

def skipWs (cs : List Char) : List Char :=
  cs.dropWhile (fun c => c == ' ' || c == '\t' || c == '\n' || c == '\r')

def hexVal (c : Char) : Option Nat :=
  if 48 ≤ c.toNat ∧ c.toNat ≤ 57 then some (c.toNat - 48)
  else if 97 ≤ c.toNat ∧ c.toNat ≤ 102 then some (c.toNat - 87)
  else if 65 ≤ c.toNat ∧ c.toNat ≤ 70 then some (c.toNat - 55)
  else none

/-- Read a JSON string body (the opening quote already consumed). -/
def readJStr (fuel : Nat) (cs : List Char) : Option (List Char × List Char) :=
  match fuel, cs with
  | 0, _ => none
  | _, [] => none
  | fuel + 1, c :: rest =>
    if c == '"' then some ([], rest)
    else if c == '\\' then
      match rest with
      | [] => none
      | e :: r1 =>
        if e == 'u' then
          match r1 with
          | h1 :: h2 :: h3 :: h4 :: r2 =>
            match hexVal h1, hexVal h2, hexVal h3, hexVal h4 with
            | some a, some b, some c3, some d =>
              match readJStr fuel r2 with
              | some (s, r3) => some (Char.ofNat (a * 4096 + b * 256 + c3 * 16 + d) :: s, r3)
              | none => none
            | _, _, _, _ => none
          | _ => none
        else
          let dec : Option Char :=
            if e == '"' then some '"'
            else if e == '\\' then some '\\'
            else if e == '/' then some '/'
            else if e == 'b' then some (Char.ofNat 8)
            else if e == 'f' then some (Char.ofNat 12)
            else if e == 'n' then some '\n'
            else if e == 'r' then some '\r'
            else if e == 't' then some '\t'
            else none
          match dec with
          | none => none
          | some ch =>
            match readJStr fuel r1 with
            | some (s, r2) => some (ch :: s, r2)
            | none => none
    else
      match readJStr fuel rest with
      | some (s, r2) => some (c :: s, r2)
      | none => none

def isDigitChar (c : Char) : Bool := 48 ≤ c.toNat && c.toNat ≤ 57

/-- Read a JSON number, returning its raw text. -/
def readJNum (cs : List Char) : Option (List Char × List Char) :=
  let (sign, r1) :=
    match cs with
    | '-' :: r => (['-'], r)
    | _ => (([] : List Char), cs)
  let ds := r1.takeWhile isDigitChar
  if ds.isEmpty then none
  else
    let r2 := r1.dropWhile isDigitChar
    let (frac, r3) :=
      match r2 with
      | '.' :: r =>
        let fs := r.takeWhile isDigitChar
        if fs.isEmpty then (([] : List Char), r2) else ('.' :: fs, r.dropWhile isDigitChar)
      | _ => (([] : List Char), r2)
    let (ex, r4) :=
      match r3 with
      | c :: r =>
        if c == 'e' || c == 'E' then
          let (es, r5) :=
            match r with
            | s :: r6 => if s == '+' || s == '-' then ([s], r6) else (([] : List Char), r)
            | [] => (([] : List Char), r)
          let xs := r5.takeWhile isDigitChar
          if xs.isEmpty then (([] : List Char), r3) else (c :: es ++ xs, r5.dropWhile isDigitChar)
        else (([] : List Char), r3)
      | [] => (([] : List Char), r3)
    some (sign ++ ds ++ frac ++ ex, r4)

def stripLit : List Char → List Char → Option (List Char)
  | [], cs => some cs
  | _ :: _, [] => none
  | p :: ps, c :: cs => if c == p then stripLit ps cs else none

mutual

/-- Read one JSON value. -/
def readJVal (fuel : Nat) (cs : List Char) : Option (JVal × List Char) :=
  match fuel with
  | 0 => none
  | fuel + 1 =>
    let cs := skipWs cs
    match cs with
    | [] => none
    | c :: rest =>
      if c == '"' then
        match readJStr fuel rest with
        | some (s, r) => some (.jstr s, r)
        | none => none
      else if c == '{' then
        readJObj fuel rest
      else if c == '[' then
        readJArr fuel rest
      else
        match stripLit "true".data cs with
        | some r => some (.jbool true, r)
        | none =>
          match stripLit "false".data cs with
          | some r => some (.jbool false, r)
          | none =>
            match stripLit "null".data cs with
            | some r => some (.jnull, r)
            | none =>
              match readJNum cs with
              | some (raw, r) => some (.jnum raw, r)
              | none => none

/-- Read an object body, the `{` already consumed. -/
def readJObj (fuel : Nat) (cs : List Char) : Option (JVal × List Char) :=
  match fuel with
  | 0 => none
  | fuel + 1 =>
    let cs := skipWs cs
    match cs with
    | '}' :: r => some (.jobj [], r)
    | _ => readJMembers fuel cs []

/-- Read object members, accumulating the fields in order. -/
def readJMembers (fuel : Nat) (cs : List Char) (acc : List (List Char × JVal)) :
    Option (JVal × List Char) :=
  match fuel with
  | 0 => none
  | fuel + 1 =>
    match skipWs cs with
    | '"' :: r1 =>
      match readJStr fuel r1 with
      | some (key, r2) =>
        match skipWs r2 with
        | ':' :: r3 =>
          match readJVal fuel r3 with
          | some (v, r4) =>
            match skipWs r4 with
            | ',' :: r5 => readJMembers fuel r5 (acc ++ [(key, v)])
            | '}' :: r5 => some (.jobj (acc ++ [(key, v)]), r5)
            | _ => none
          | none => none
        | _ => none
      | none => none
    | _ => none

/-- Read an array body, the `[` already consumed. -/
def readJArr (fuel : Nat) (cs : List Char) : Option (JVal × List Char) :=
  match fuel with
  | 0 => none
  | fuel + 1 =>
    match skipWs cs with
    | ']' :: r => some (.jarr [], r)
    | cs2 => readJElems fuel cs2 []

def readJElems (fuel : Nat) (cs : List Char) (acc : List JVal) : Option (JVal × List Char) :=
  match fuel with
  | 0 => none
  | fuel + 1 =>
    match readJVal fuel cs with
    | some (v, r1) =>
      match skipWs r1 with
      | ',' :: r2 => readJElems fuel r2 (acc ++ [v])
      | ']' :: r2 => some (.jarr (acc ++ [v]), r2)
      | _ => none
    | none => none

end

/-- `JSON.parse(line)`: the whole line must be one value (up to
whitespace), otherwise the parse throws and the line is skipped. -/
def jsonParseChars (cs : List Char) : Option JVal :=
  match readJVal (cs.length + 1) cs with
  | some (v, rest) => if (skipWs rest).isEmpty then some v else none
  | none => none

/-- Mantissa-based zero test of a raw JSON number (JS truthiness). -/
def numIsZeroRaw (raw : List Char) : Bool :=
  (raw.takeWhile (fun c => !(c == 'e' || c == 'E'))).all
    (fun c => c == '0' || c == '.' || c == '-')

/-- JS truthiness of a parsed JSON value. -/
def jTruthy : JVal → Bool
  | .jnull => false
  | .jbool b => b
  | .jnum raw => !numIsZeroRaw raw
  | .jstr s => !s.isEmpty
  | .jarr _ => true
  | .jobj _ => true

/-- Member access `data.name` (on a JS object built by `JSON.parse`,
a duplicated key keeps its last occurrence). -/
def jField (v : JVal) (name : List Char) : Option JVal :=
  match v with
  | .jobj fs => ((fs.filter (fun p => p.1 == name)).getLast?).map (·.2)
  | _ => none

/-- `data.url || data.video_url || data.media_url || (data.media && data.media.url)`:
the first truthy candidate, if any. -/
def jsonVideoField (data : JVal) : Option JVal :=
  let pick : Option JVal → Option JVal := fun o =>
    match o with
    | some v => if jTruthy v then some v else none
    | none => none
  (pick (jField data "url".data)).orElse (fun _ =>
  (pick (jField data "video_url".data)).orElse (fun _ =>
  (pick (jField data "media_url".data)).orElse (fun _ =>
  pick (match jField data "media".data with
        | some m => if jTruthy m then jField m "url".data else none
        | none => none))))

/-- One line of `_extractUrlFromJson`: parse, pick the URL-bearing
field, keep it when it is a string passing `_isVideoUrl` (a truthy
non-string would make `_isVideoUrl` throw, which the per-line catch
turns into a skip). -/
def jsonLineUrl (line : List Char) : Option (List Char) :=
  match jsonParseChars line with
  | none => none
  | some data =>
    match jsonVideoField data with
    | some (.jstr u) => if isVideoUrlB u then some u else none
    | some _ => none
    | none => none

/-- `GalleryDlStrategy._extractUrlFromJson`. -/
def extractUrlFromJson (stdout : String) : Option String :=
  if stdout == "" then none
  else
    ((splitOnChar '\n' (trimChars stdout.data)).findSome? jsonLineUrl).map String.mk

/-! ## Tool strategies: error classification and the fallback loops -/

/-- The combined text `${message} ${stderr}` after lower-casing, as
built by both `_categorizeError` implementations. -/
def combinedErrorText (e : JsError) : List Char :=
  lowerChars e.message.data ++ ' ' :: lowerChars e.stderr.data

/-- `YtDlpStrategy._categorizeError`. -/
def ytCategorizeError (e? : Option JsError) : String :=
  match e? with
  | none => "unknown"
  | some e =>
    let combined := combinedErrorText e
    if containsChars "rate-limit".data combined || containsChars "429".data combined then
      "rate_limit"
    else if containsChars "login required".data combined ||
        containsChars "authentication".data combined then
      "authentication"
    else if containsChars "not available".data combined ||
        containsChars "404".data combined then
      "not_found"
    else if containsChars "timeout".data combined then "timeout"
    else "unknown"

/-- `GalleryDlStrategy._categorizeError` (note: `'not found'` where the
yt-dlp classifier has `'not available'`). -/
def galleryCategorizeError (e? : Option JsError) : String :=
  match e? with
  | none => "unknown"
  | some e =>
    let combined := combinedErrorText e
    if containsChars "rate-limit".data combined || containsChars "429".data combined then
      "rate_limit"
    else if containsChars "login required".data combined ||
        containsChars "authentication".data combined then
      "authentication"
    else if containsChars "not found".data combined ||
        containsChars "404".data combined then
      "not_found"
    else if containsChars "timeout".data combined then "timeout"
    else "unknown"

/-- The fields of a strategy `execute` result that the orchestrator
consumes. -/
structure ToolResult where
  success : Bool
  downloadUrl : Option String := none
  tool : String
  strategy : String
  error : Option String := none
  errorCategory : Option String := none
deriving DecidableEq

/-- Observable actions of one orchestration, in order. -/
inductive Event where
  | exec (tool strategyName : String)
  | delayMs (ms : Nat)
  | cacheGet (key : String)
  | cacheSet (key : String)
  | backoff
deriving DecidableEq

def ytStrategyNames : List String :=
  ["fresh_browser_cookies", "file_cookies_enhanced", "firefox_fallback", "embed_only"]

def galleryStrategyNames : List String :=
  ["direct_url_extraction", "json_metadata_extraction", "simple_download"]

def ytFailResult (lastError : Option JsError) : ToolResult :=
  { success := false, tool := "yt-dlp", strategy := "all_failed",
    error := some (match lastError with
      | some e => if e.message == "" then "All yt-dlp strategies failed" else e.message
      | none => "All yt-dlp strategies failed"),
    errorCategory := some (ytCategorizeError lastError) }

def galleryFailResult (lastError : Option JsError) : ToolResult :=
  { success := false, tool := "gallery-dl", strategy := "all_failed",
    error := some (match lastError with
      | some e => if e.message == "" then "All gallery-dl strategies failed" else e.message
      | none => "All gallery-dl strategies failed"),
    errorCategory := some (galleryCategorizeError lastError) }

/-- The per-strategy loop of `YtDlpStrategy.execute`, driven by an
oracle giving each `execFileAsync` result.  The inter-strategy delay of
2000ms occurs only in the catch branch (process failure) and only when
the current strategy is not the last one. -/
def ytRun (oracle : Nat → ExecResult) : Nat → List String → Option JsError →
    ToolResult × List Event
  | _, [], lastError => (ytFailResult lastError, [])
  | i, name :: rest, lastError =>
    match oracle i with
    | .ok out =>
      match extractDownloadUrl out with
      | some u =>
        ({ success := true, downloadUrl := some u, tool := "yt-dlp", strategy := name },
         [.exec "yt-dlp" name])
      | none =>
        let r := ytRun oracle (i + 1) rest lastError
        (r.1, .exec "yt-dlp" name :: r.2)
    | .err e =>
      let dtr : List Event := if rest.isEmpty then [] else [.delayMs 2000]
      let r := ytRun oracle (i + 1) rest (some e)
      (r.1, .exec "yt-dlp" name :: (dtr ++ r.2))

def ytExecute (oracle : Nat → ExecResult) : ToolResult × List Event :=
  ytRun oracle 0 ytStrategyNames none

/-- Output parsing of one gallery-dl strategy, chosen by strategy name
as in `GalleryDlStrategy.execute`. -/
def galleryParse (name : String) (out : String) : Option String :=
  if name == "json_metadata_extraction" then extractUrlFromJson out else extractDirectUrl out

/-- The per-strategy loop of `GalleryDlStrategy.execute` (inter-strategy
delay 1500ms, same placement as in `YtDlpStrategy`). -/
def galleryRun (oracle : Nat → ExecResult) : Nat → List String → Option JsError →
    ToolResult × List Event
  | _, [], lastError => (galleryFailResult lastError, [])
  | i, name :: rest, lastError =>
    match oracle i with
    | .ok out =>
      match galleryParse name out with
      | some u =>
        ({ success := true, downloadUrl := some u, tool := "gallery-dl", strategy := name },
         [.exec "gallery-dl" name])
      | none =>
        let r := galleryRun oracle (i + 1) rest lastError
        (r.1, .exec "gallery-dl" name :: r.2)
    | .err e =>
      let dtr : List Event := if rest.isEmpty then [] else [.delayMs 1500]
      let r := galleryRun oracle (i + 1) rest (some e)
      (r.1, .exec "gallery-dl" name :: (dtr ++ r.2))

def galleryExecute (oracle : Nat → ExecResult) : ToolResult × List Event :=
  galleryRun oracle 0 galleryStrategyNames none

/-! ## CacheService over the key-value store

A stored value is either the JSON record written by `CacheService.set`
(`JSON.parse ∘ JSON.stringify` is the identity on these plain records,
so serialization is kept at the record level) or a legacy plain string
that is not valid JSON.  A key present in the store models an
unexpired record: redis expires records by itself (`EX` on `set`). -/

inductive StoredValue where
  | jsonRec (downloadUrl : Option String) (tool strategy originalUrl : String)
  | legacy (raw : String)
deriving DecidableEq

/-- What `CacheService.get` hands back to the orchestrator. -/
structure CacheRecord where
  downloadUrl : Option String
  tool : String
  strategy : String
deriving DecidableEq

def storeLookup (st : List (String × StoredValue)) (k : String) : Option StoredValue :=
  (st.find? (fun p => p.1 == k)).map (·.2)

def storeSet (st : List (String × StoredValue)) (k : String) (v : StoredValue) :
    List (String × StoredValue) :=
  (k, v) :: st

/-- `CacheService.get`: a throwing `redis.get` is caught and reported as
a miss; a legacy plain string is wrapped as a minimal record. -/
def cacheGetModel (getFails : Bool) (st : List (String × StoredValue)) (k : String) :
    Option CacheRecord :=
  if getFails then none
  else
    match storeLookup st k with
    | none => none
    | some (.jsonRec u t s _o) => some ⟨u, t, s⟩
    | some (.legacy raw) => some ⟨some raw, "unknown", "legacy"⟩

/-! ## DownloadOrchestrator -/

/-- The collaborators of one orchestration: whether `redis.get` throws
for a key, whether `redis.set` throws, and the two tools' process
results per strategy index. -/
structure World where
  redisGetFails : String → Bool
  redisSetOk : Bool
  ytExec : Nat → ExecResult
  galleryExec : Nat → ExecResult

/-- `DownloadStrategy.canHandle` of both tools:
`url.includes('instagram.com')` (case sensitive). -/
def canHandleUrl (url : String) : Bool :=
  containsChars "instagram.com".data url.data

inductive ToolId where
  | yt
  | gallery
deriving DecidableEq

/-- The orchestrator's strategy list, already in ascending priority
order (yt-dlp priority 1, gallery-dl priority 2). -/
def orchTools : List ToolId := [ToolId.yt, ToolId.gallery]

def toolExecute (w : World) : ToolId → ToolResult × List Event
  | .yt => ytExecute w.ytExec
  | .gallery => galleryExecute w.galleryExec

/-- The outcome object returned by `download` (union of the success and
`_createErrorResponse` shapes; absent JS fields are `none`/`false`). -/
structure DownloadOutcome where
  success : Bool
  downloadUrl : Option String := none
  cached : Bool := false
  originalUrl : String
  error : Option String := none
  category : Option String := none
  details : Option String := none
  statusCode : Option Int := none
deriving DecidableEq

/-- The classification chain of `_createErrorResponse`: category,
user-friendly message and status code from case-sensitive substring
checks on the error message. -/
def classifyMessage (errorMessage : String) : String × String × Int :=
  if strIncludes "Invalid Instagram URL" errorMessage then
    ("invalid_url",
     "Invalid Instagram URL. Please provide a valid Instagram post, reel, or story URL.", 400)
  else if strIncludes "rate-limit" errorMessage || strIncludes "429" errorMessage then
    ("rate_limit",
     "Instagram rate limit reached. Please wait a few minutes before trying again.", 429)
  else if strIncludes "authentication" errorMessage ||
      strIncludes "login required" errorMessage then
    ("authentication",
     "Authentication required. This content may be private or require login.", 403)
  else if strIncludes "not found" errorMessage || strIncludes "404" errorMessage then
    ("not_found", "Content not found or has been deleted.", 404)
  else if strIncludes "timeout" errorMessage then
    ("timeout", "Request timed out. Instagram may be slow, please try again.", 408)
  else ("unknown", "Download failed. Please try again later.", 500)

/-- `DownloadOrchestrator._createErrorResponse`. -/
def createErrorResponse (errorMessage : String) (originalUrl : String) : DownloadOutcome :=
  let c := classifyMessage errorMessage
  { success := false, originalUrl, error := some c.2.1, category := some c.1,
    details := some errorMessage, statusCode := some c.2.2 }

/-- The tool loop of `_executeDownloadStrategies`.  A tool whose
`canHandle` rejects the URL is skipped; before each attempted tool,
`applyBackoff` runs (a pure delay, traced as `.backoff`); a successful
tool caches its result (`redis.set` may throw, which `CacheService.set`
absorbs) and ends the loop; a failed tool becomes `lastResult`.  When
every tool is exhausted the loop throws, carrying the last failure's
message.  (`recordSuccess`/`recordFailure` bookkeeping only feeds the
backoff delays and is modelled with the RateLimitManager below.) -/
def execDSGo (w : World) (cacheKey normalizedUrl originalUrl : String) :
    List ToolId → Option ToolResult → List (String × StoredValue) →
    Except String DownloadOutcome × List (String × StoredValue) × List Event
  | [], lastResult, store =>
    (.error (match lastResult with
      | some r => "All download strategies failed. Last error: " ++
          (match r.error with
           | some m => m
           | none => "undefined")
      | none => "No suitable download strategy found"), store, [])
  | t :: rest, lastResult, store =>
    if canHandleUrl normalizedUrl then
      let res := (toolExecute w t).1
      let tr := (toolExecute w t).2
      if res.success then
        let outcome : DownloadOutcome :=
          { success := true, downloadUrl := res.downloadUrl, cached := false, originalUrl }
        let store2 :=
          if w.redisSetOk then
            storeSet store cacheKey (.jsonRec res.downloadUrl res.tool res.strategy originalUrl)
          else store
        (.ok outcome, store2, .backoff :: tr ++ [.cacheSet cacheKey])
      else
        let r := execDSGo w cacheKey normalizedUrl originalUrl rest (some res) store
        (r.1, r.2.1, .backoff :: tr ++ r.2.2)
    else
      execDSGo w cacheKey normalizedUrl originalUrl rest lastResult store

/-- `DownloadOrchestrator.download` for one sequential call: validate,
normalize, check the cache, and otherwise run the strategy chain inside
the stampede guard (which, with no concurrent call in flight, registers
the work, runs it, and deregisters — the guard itself is modelled in
the stampede section below).  A thrown error anywhere is converted by
the top-level catch into a `_createErrorResponse` outcome. -/
def download (w : World) (store : List (String × StoredValue)) (originalUrl : String) :
    DownloadOutcome × List (String × StoredValue) × List Event :=
  if isValidInstagramUrl originalUrl then
    match cacheGetModel (w.redisGetFails (extractCacheKey (normalizeUrl originalUrl))) store
        (extractCacheKey (normalizeUrl originalUrl)) with
    | some rec =>
      ({ success := true, downloadUrl := rec.downloadUrl, cached := true, originalUrl },
       store, [.cacheGet (extractCacheKey (normalizeUrl originalUrl))])
    | none =>
      match execDSGo w (extractCacheKey (normalizeUrl originalUrl)) (normalizeUrl originalUrl)
          originalUrl orchTools none store with
      | (.ok outcome, st2, tr) =>
        (outcome, st2, .cacheGet (extractCacheKey (normalizeUrl originalUrl)) :: tr)
      | (.error msg, st2, tr) =>
        (createErrorResponse msg originalUrl, st2,
         .cacheGet (extractCacheKey (normalizeUrl originalUrl)) :: tr)
  else
    (createErrorResponse "Invalid Instagram URL. Supported: /p/, /reel(s)/, /stories/." originalUrl,
     store, [])

/-! ## RateLimitManager: backoff bookkeeping -/

structure FailRec where
  consecutiveFailures : Nat
  lastFailure : Int
  errorType : String
deriving DecidableEq

def rlLookup (st : List (String × FailRec)) (d : String) : Option FailRec :=
  (st.find? (fun p => p.1 == d)).map (·.2)

/-- `RateLimitManager.getBackoffDelay` (`now` is `Date.now()`). -/
def getBackoffDelay (st : List (String × FailRec)) (domain : String) (now : Int) : Int :=
  match rlLookup st domain with
  | none => 0
  | some f =>
    let timeSince := now - f.lastFailure
    let expected : Int := min (1000 * 2 ^ (f.consecutiveFailures - 1)) 30000
    if timeSince < expected then expected - timeSince else 0

/-- `RateLimitManager.recordFailure`. -/
def recordFailure (st : List (String × FailRec)) (domain errorType : String) (now : Int) :
    List (String × FailRec) :=
  let f := (rlLookup st domain).getD ⟨0, 0, "unknown"⟩
  (domain, ⟨f.consecutiveFailures + 1, now, errorType⟩) ::
    st.filter (fun p => !(p.1 == domain))

/-- `RateLimitManager.recordSuccess`: delete the domain entry. -/
def recordSuccess (st : List (String × FailRec)) (domain : String) :
    List (String × FailRec) :=
  st.filter (fun p => !(p.1 == domain))

/-- `RateLimitManager.isRateLimited`. -/
def isRateLimited (st : List (String × FailRec)) (domain : String) (now : Int) : Bool :=
  getBackoffDelay st domain now > 0

/-! ## Stampede guard

`preventStampede` performs its map check, the call of `requestFn`, and
the map registration in one synchronous block (there is no `await`
between them), so each caller's arrival is one atomic step of the
event loop.  The runner's completion (settle the shared promise,
`finally`-delete the registration) is another atomic step, after which
each waiter's `await` resumes with the settled value.  The model below
is this transition system for one cache key; the work's outcome
`Except String String` covers both a returned result and a propagated
rejection. -/

instance : DecidableEq (Except String String) := fun a b =>
  match a, b with
  | .ok x, .ok y => if h : x = y then isTrue (by rw [h]) else isFalse (by simp [h])
  | .error x, .error y => if h : x = y then isTrue (by rw [h]) else isFalse (by simp [h])
  | .ok _, .error _ => isFalse (by simp)
  | .error _, .ok _ => isFalse (by simp)

inductive Phase where
  | pending
  | runningWork
  | waiting
  | done (r : Except String String)
deriving DecidableEq

structure GuardState where
  phases : Nat → Phase
  registered : Bool
  resolved : Option (Except String String)
  execCount : Nat

def phaseSet (f : Nat → Phase) (i : Nat) (p : Phase) : Nat → Phase :=
  fun j => if j = i then p else f j

/-- A caller reaches `preventStampede`: attach as a waiter when a
request is registered, otherwise register and start the work. -/
def arriveStep (s : GuardState) (i : Nat) : GuardState :=
  match s.phases i with
  | .pending =>
    if s.registered then { s with phases := phaseSet s.phases i .waiting }
    else
      { s with
          registered := true
          phases := phaseSet s.phases i .runningWork
          execCount := s.execCount + 1 }
  | _ => s

/-- The single work execution settles with `r`: the `finally` clause
deregisters unconditionally, then the runner returns/rethrows `r`. -/
def finishStep (s : GuardState) (i : Nat) (r : Except String String) : GuardState :=
  if s.phases i = Phase.runningWork then
    { s with
        registered := false
        resolved := some r
        phases := phaseSet s.phases i (.done r) }
  else s

/-- A waiter's `await` resumes with the settled value. -/
def wakeStep (s : GuardState) (i : Nat) : GuardState :=
  match s.phases i, s.resolved with
  | .waiting, some r => { s with phases := phaseSet s.phases i (.done r) }
  | _, _ => s

def initGuard : GuardState :=
  { phases := fun _ => .pending, registered := false, resolved := none, execCount := 0 }

/-- N concurrent callers for one key with no pre-existing cache entry:
all arrivals happen while the single work execution is in flight, then
the work settles, then the waiters resume. -/
def runStampede (callers : List Nat) (r : Except String String) : GuardState :=
  match callers with
  | [] => initGuard
  | lead :: rest =>
    let s1 := rest.foldl arriveStep (arriveStep initGuard lead)
    let s2 := finishStep s1 lead r
    rest.foldl wakeStep s2

/-! ## Sample collaborators used to instantiate theorems -/

/-- A world in which every strategy of both tools fails with a process
error whose stderr carries a rate-limit marker. -/
def failWorld : World :=
  { redisGetFails := fun _ => false, redisSetOk := true,
    ytExec := fun _ => .err ⟨"boom", "429"⟩,
    galleryExec := fun _ => .err ⟨"boom", "429"⟩ }

/-- A world in which the first yt-dlp strategy extracts a URL. -/
def okWorld : World :=
  { redisGetFails := fun _ => false, redisSetOk := true,
    ytExec := fun _ => .ok "https://cdn.example/video.mp4",
    galleryExec := fun _ => .err ⟨"x", ""⟩ }

/-- Oracle for the C8 counterexample: the first gallery-dl strategy
completes with output containing no usable URL, later ones throw. -/
def c8Oracle : Nat → ExecResult :=
  fun i => if i == 0 then .ok "nothing" else .err ⟨"boom", ""⟩

/-! ## Claim C4 — invalid identifiers short-circuit -/

/-- Claim C4. For every invalid identifier (one failing validation),
`download` returns a failure outcome with category `invalid_url`
(status 400) without touching the store and without invoking any
external tool: the returned store is unchanged and the event trace is
empty (no cache get, no cache set, no tool execution). -/
theorem c4_invalid_url_short_circuit (w : World) (store : List (String × StoredValue))
    (url : String) (h : isValidInstagramUrl url = false) :
    (download w store url).1.success = false ∧
    (download w store url).1.category = some "invalid_url" ∧
    (download w store url).1.statusCode = some 400 ∧
    (download w store url).2.1 = store ∧
    (download w store url).2.2 = ([] : List Event) := by
  have hd : download w store url =
      (createErrorResponse "Invalid Instagram URL. Supported: /p/, /reel(s)/, /stories/." url,
       store, []) := by
    simp [download, h]
  rw [hd]
  exact ⟨rfl, rfl, rfl, rfl, rfl⟩

/-- Witness for C4 at the concrete invalid input `"not a url"`. -/
theorem c4_invalid_url_short_circuit_witness :
    isValidInstagramUrl "not a url" = false ∧
    (download failWorld [] "not a url").1.category = some "invalid_url" := by
  exact ⟨by decide, (c4_invalid_url_short_circuit failWorld [] "not a url" (by decide)).2.1⟩

/-! ## Claim C5 — exponential, capped, resettable backoff -/

/-- Looking up a domain after its entry was deleted yields nothing. -/
theorem rlLookup_filter_out (st : List (String × FailRec)) (d : String) :
    rlLookup (st.filter (fun p => !(p.1 == d))) d = none := by
  induction st with
  | nil => rfl
  | cons p st ih =>
    by_cases hp : p.1 = d
    · simp only [List.filter, hp, beq_self_eq_true, Bool.not_true]
      exact ih
    · have hb : (p.1 == d) = false := by simp [hp]
      simp only [rlLookup, List.filter, List.find?, hb, Bool.not_false, if_true]
      simp only [rlLookup] at ih
      exact ih

/-- Claim C5. For a domain with `k ≥ 1` recorded consecutive failures
(last failure at time `t`), the delay returned at time `now` is the
remainder of the window `min (1000·2^(k-1)) 30000`: zero when no
failure is recorded or the window has already elapsed, the remaining
wait otherwise; at a fixed elapsed time the delay is non-decreasing in
`k`; and `recordSuccess` resets the domain so the delay is zero. -/
theorem c5_backoff_window (st : List (String × FailRec)) (d : String) (now t : Int)
    (k : Nat) (et : String) (_hk : 1 ≤ k) (hl : rlLookup st d = some ⟨k, t, et⟩) :
    getBackoffDelay st d now =
      max 0 (min (1000 * (2 : Int) ^ (k - 1)) 30000 - (now - t)) ∧
    (∀ st2, rlLookup st2 d = none → getBackoffDelay st2 d now = 0) ∧
    (min (1000 * (2 : Int) ^ (k - 1)) 30000 ≤ now - t → getBackoffDelay st d now = 0) ∧
    (∀ st3 k2 et2, rlLookup st3 d = some ⟨k2, t, et2⟩ → k ≤ k2 →
       getBackoffDelay st d now ≤ getBackoffDelay st3 d now) ∧
    getBackoffDelay (recordSuccess st d) d now = 0 := by
  refine ⟨?_, ?_, ?_, ?_, ?_⟩
  · rw [getBackoffDelay, hl]
    have hE : (0 : Int) ≤ min (1000 * (2 : Int) ^ (k - 1)) 30000 := by
      have : (0 : Int) ≤ (2 : Int) ^ (k - 1) := pow_nonneg (by norm_num) _
      positivity
    set E := min (1000 * (2 : Int) ^ (k - 1)) 30000 with hEdef
    simp only
    split <;> omega
  · intro st2 h2
    rw [getBackoffDelay, h2]
  · intro helapsed
    rw [getBackoffDelay, hl]
    simp only
    split <;> omega
  · intro st3 k2 et2 h3 hkk
    rw [getBackoffDelay, hl, getBackoffDelay, h3]
    have hpow : (2 : Int) ^ (k - 1) ≤ (2 : Int) ^ (k2 - 1) :=
      pow_le_pow_right₀ (by norm_num) (Nat.sub_le_sub_right hkk 1)
    have hW : min (1000 * (2 : Int) ^ (k - 1)) 30000 ≤
        min (1000 * (2 : Int) ^ (k2 - 1)) 30000 :=
      min_le_min (by linarith) le_rfl
    simp only
    split <;> split <;> omega
  · rw [recordSuccess, getBackoffDelay, rlLookup_filter_out]

/-- Witness for C5: one recorded failure at time 100, queried at time
600, gives the remaining 500ms of the 1000ms window; two failures give
1500ms; a success resets to zero. -/
theorem c5_backoff_window_witness :
    rlLookup (recordFailure [] "instagram.com" "rate_limit" 100) "instagram.com" =
      some ⟨1, 100, "rate_limit"⟩ ∧
    getBackoffDelay (recordFailure [] "instagram.com" "rate_limit" 100) "instagram.com" 600 =
      max 0 (min (1000 * (2 : Int) ^ (1 - 1)) 30000 - (600 - 100)) := by
  refine ⟨by decide, ?_⟩
  exact (c5_backoff_window (recordFailure [] "instagram.com" "rate_limit" 100)
    "instagram.com" 600 100 1 "rate_limit" le_rfl (by decide)).1

/-! ## Claim C6 — line selection of the two direct-URL parsers -/

/-- Filtering by the URL pattern and then by the video heuristic is one
filter by their conjunction. -/
theorem filter_http_video (l : List (List Char)) :
    (l.filter isHttpLine).filter isVideoUrlB =
      l.filter (fun x => isHttpLine x && isVideoUrlB x) := by
  induction l with
  | nil => rfl
  | cons a tl ih =>
    by_cases h1 : isHttpLine a <;> by_cases h2 : isVideoUrlB a <;>
      simp [List.filter, h1, h2, ih]

/-- Claim C6. On every line-oriented tool output, the primary tool's
parser (`YtDlpStrategy._extractDownloadUrl`) returns the last line
matching the HTTP(S) URL pattern (or nothing when none matches), and
the fallback tool's line-mode parser
(`GalleryDlStrategy._extractDirectUrl`) returns the first line that
both matches the URL pattern and passes the video-content heuristic
(or nothing when none does). -/
theorem c6_line_selection (stdout : String) :
    extractDownloadUrl stdout =
      (((linesOf stdout).filter isHttpLine).getLast?).map String.mk ∧
    extractDirectUrl stdout =
      (((linesOf stdout).filter
          (fun l => isHttpLine l && isVideoUrlB l)).head?).map String.mk := by
  constructor
  · rw [extractDownloadUrl]
    by_cases h : stdout = ""
    · subst h; rfl
    · have hb : (stdout == "") = false := by simp [h]
      rw [hb]
      simp only [Bool.false_eq_true, if_false, List.getLast?_eq_getElem?]
      rcases hl : (linesOf stdout).filter isHttpLine with _ | ⟨a, tl⟩
      · rfl
      · simp
  · rw [extractDirectUrl]
    by_cases h : stdout = ""
    · subst h; rfl
    · have hb : (stdout == "") = false := by simp [h]
      rw [hb]
      simp only [Bool.false_eq_true, if_false, filter_http_video]
      rcases hl : (linesOf stdout).filter (fun x => isHttpLine x && isVideoUrlB x)
        with _ | ⟨a, tl⟩
      · rfl
      · simp

/-! ## Claim C7 — error classification is not one shared routine -/

/-- Claim C7 counterexample. The classifiers are three separate routines
that disagree: the error text `"not found"` is classified `not_found`
by the fallback tool's classifier but `unknown` by the primary tool's
classifier (which looks for `"not available"` instead), so the claim
that one shared routine maps every text to the same category — in
particular `"not found"` to `not_found` everywhere — is false. -/
theorem c7_counterexample :
    galleryCategorizeError (some ⟨"not found", ""⟩) = "not_found" ∧
    ytCategorizeError (some ⟨"not found", ""⟩) = "unknown" ∧
    (classifyMessage "NOT FOUND").1 = "unknown" ∧
    galleryCategorizeError (some ⟨"NOT FOUND", ""⟩) = "not_found" := by
  refine ⟨by decide, by decide, by decide, by decide⟩

/-- Claim C7, amended. Error classification is performed by three
separate routines (one per strategy class, plus the orchestrator's
case-sensitive message classifier), which differ on `"not found"`
versus `"not available"` and on case handling; they do agree on texts
containing `"404"`: whenever no higher-priority marker
(rate-limit/429/authentication) matches, all three classify a text
containing `"404"` as `not_found`. -/
theorem c7_amended_404_agreement (e : JsError)
    (h404 : containsChars "404".data (combinedErrorText e) = true)
    (hrl : containsChars "rate-limit".data (combinedErrorText e) = false)
    (h429 : containsChars "429".data (combinedErrorText e) = false)
    (hlog : containsChars "login required".data (combinedErrorText e) = false)
    (hauth : containsChars "authentication".data (combinedErrorText e) = false) :
    ytCategorizeError (some e) = "not_found" ∧
    galleryCategorizeError (some e) = "not_found" ∧
    (∀ msg : String, strIncludes "404" msg = true →
      strIncludes "Invalid Instagram URL" msg = false →
      strIncludes "rate-limit" msg = false → strIncludes "429" msg = false →
      strIncludes "authentication" msg = false → strIncludes "login required" msg = false →
      (classifyMessage msg).1 = "not_found") := by
  refine ⟨?_, ?_, ?_⟩
  · rw [ytCategorizeError]
    simp only [h404, hrl, h429, hlog, hauth, Bool.or_true, Bool.or_false,
      Bool.false_or, Bool.or_self, if_false, if_true, Bool.false_eq_true]
  · rw [galleryCategorizeError]
    simp only [h404, hrl, h429, hlog, hauth, Bool.or_true, Bool.or_false,
      Bool.false_or, Bool.or_self, if_false, if_true, Bool.false_eq_true]
  · intro msg h1 h2 h3 h4 h5 h6
    rw [classifyMessage]
    simp only [h1, h2, h3, h4, h5, h6, Bool.or_true, Bool.or_false, Bool.false_or,
      Bool.or_self, if_false, if_true, Bool.false_eq_true]

/-- Witness for the amended C7 at the concrete error text
`"HTTP Error 404"`. -/
theorem c7_amended_404_agreement_witness :
    ytCategorizeError (some ⟨"HTTP Error 404", ""⟩) = "not_found" ∧
    galleryCategorizeError (some ⟨"HTTP Error 404", ""⟩) = "not_found" ∧
    (classifyMessage "HTTP Error 404").1 = "not_found" := by
  have h := c7_amended_404_agreement ⟨"HTTP Error 404", ""⟩
    (by decide) (by decide) (by decide) (by decide) (by decide)
  exact ⟨h.1, h.2.1, h.2.2 "HTTP Error 404" (by decide) (by decide) (by decide)
    (by decide) (by decide) (by decide)⟩

/-! ## Claim C8 — placement of the inter-strategy delay -/

/-- Claim C8 counterexample. In the gallery-dl Strategy Set, the first
strategy completes but yields no usable URL, yet no inter-strategy
delay is applied before the second strategy runs (the delay exists only
in the catch branch): the trace below moves directly from the first to
the second strategy, refuting the claim that a delay follows every
strategy that fails *or yields no usable URL*. -/
theorem c8_counterexample :
    galleryParse "direct_url_extraction" "nothing" = none ∧
    (galleryExecute c8Oracle).2 =
      [.exec "gallery-dl" "direct_url_extraction",
       .exec "gallery-dl" "json_metadata_extraction",
       .delayMs 1500,
       .exec "gallery-dl" "simple_download"] := by
  exact ⟨rfl, rfl⟩

/-- Claim C8, amended. Within one Strategy Set execution, the fixed
inter-strategy delay (2000ms for yt-dlp, 1500ms for gallery-dl) is
applied exactly after a strategy whose process invocation fails
(non-zero exit or timeout) when it is not the last strategy of the set;
a strategy that completes but yields no usable URL advances to the next
strategy immediately, with no delay, and no delay follows the last
strategy. -/
theorem c8_amended_delay_placement (f : Nat → ExecResult) (e : JsError) (out : String) :
    (f 0 = .err e → (galleryExecute f).2.take 2 =
      [.exec "gallery-dl" "direct_url_extraction", .delayMs 1500]) ∧
    (f 0 = .err e → (ytExecute f).2.take 2 =
      [.exec "yt-dlp" "fresh_browser_cookies", .delayMs 2000]) ∧
    (f 0 = .ok out → extractDirectUrl out = none → (galleryExecute f).2.take 2 =
      [.exec "gallery-dl" "direct_url_extraction", .exec "gallery-dl" "json_metadata_extraction"]) ∧
    (f 0 = .ok out → extractDownloadUrl out = none → (ytExecute f).2.take 2 =
      [.exec "yt-dlp" "fresh_browser_cookies", .exec "yt-dlp" "file_cookies_enhanced"]) ∧
    (∀ e1 e2, f 0 = .err e → f 1 = .err e1 → f 2 = .err e2 → (galleryExecute f).2 =
      [.exec "gallery-dl" "direct_url_extraction", .delayMs 1500,
       .exec "gallery-dl" "json_metadata_extraction", .delayMs 1500,
       .exec "gallery-dl" "simple_download"]) ∧
    (∀ e1 e2 e3, f 0 = .err e → f 1 = .err e1 → f 2 = .err e2 → f 3 = .err e3 →
      (ytExecute f).2 =
      [.exec "yt-dlp" "fresh_browser_cookies", .delayMs 2000,
       .exec "yt-dlp" "file_cookies_enhanced", .delayMs 2000,
       .exec "yt-dlp" "firefox_fallback", .delayMs 2000,
       .exec "yt-dlp" "embed_only"]) := by
  refine ⟨?_, ?_, ?_, ?_, ?_, ?_⟩
  · intro h0
    simp [galleryExecute, galleryStrategyNames, galleryRun, h0, List.take]
  · intro h0
    simp [ytExecute, ytStrategyNames, ytRun, h0, List.take]
  · intro h0 hp
    simp only [galleryExecute, galleryStrategyNames, galleryRun, h0]
    have hp2 : galleryParse "direct_url_extraction" out = none := by
      simpa [galleryParse] using hp
    rw [hp2]
    rcases h1 : f 1 with out1 | e1
    · rcases hq : galleryParse "json_metadata_extraction" out1 with _ | u <;>
        simp [galleryRun, h1, hq, List.take]
    · simp [galleryRun, h1, List.take]
  · intro h0 hp
    simp only [ytExecute, ytStrategyNames, ytRun, h0]
    rw [hp]
    rcases h1 : f 1 with out1 | e1
    · rcases hq : extractDownloadUrl out1 with _ | u <;>
        simp [ytRun, h1, hq, List.take]
    · simp [ytRun, h1, List.take]
  · intro e1 e2 h0 h1 h2
    simp [galleryExecute, galleryStrategyNames, galleryRun, h0, h1, h2]
  · intro e1 e2 e3 h0 h1 h2 h3
    simp [ytExecute, ytStrategyNames, ytRun, h0, h1, h2, h3]

/-! ## Claim C9 — stampede prevention -/

/-- Once a request is registered, later arrivals only turn pending
callers into waiters: registration, resolution and the execution count
are untouched. -/
theorem foldl_arrive_registered (l : List Nat) (s : GuardState) (hreg : s.registered = true) :
    (l.foldl arriveStep s).registered = true ∧
    (l.foldl arriveStep s).resolved = s.resolved ∧
    (l.foldl arriveStep s).execCount = s.execCount ∧
    ∀ j, (l.foldl arriveStep s).phases j =
      if j ∈ l ∧ s.phases j = Phase.pending then Phase.waiting else s.phases j := by
  induction l generalizing s with
  | nil => exact ⟨hreg, rfl, rfl, fun j => by simp⟩
  | cons a l ih =>
    have hstep : arriveStep s a =
        (if s.phases a = Phase.pending then { s with phases := phaseSet s.phases a .waiting }
         else s) := by
      rw [arriveStep]
      rcases hpa : s.phases a with _ | _ | _ | r <;> simp [hpa, hreg]
    have hreg2 : (arriveStep s a).registered = true := by
      rw [hstep]; split <;> simp [hreg]
    obtain ⟨h1, h2, h3, h4⟩ := ih (arriveStep s a) hreg2
    simp only [List.foldl_cons]
    refine ⟨h1, ?_, ?_, ?_⟩
    · rw [h2, hstep]; split <;> rfl
    · rw [h3, hstep]; split <;> rfl
    · intro j
      rw [h4 j]
      rw [hstep]
      by_cases hpa : s.phases a = Phase.pending
      · simp only [hpa, if_true]
        by_cases hja : j = a
        · subst hja
          simp [phaseSet, hpa, List.mem_cons]
        · have hps : phaseSet s.phases a Phase.waiting j = s.phases j := by
            simp [phaseSet, hja]
          simp only [hps, List.mem_cons]
          by_cases hjl : j ∈ l <;> by_cases hpj : s.phases j = Phase.pending <;>
            simp [hjl, hpj, hja]
      · simp only [hpa, if_false]
        by_cases hja : j = a
        · subst hja
          simp [List.mem_cons, hpa]
        · simp only [List.mem_cons]
          by_cases hjl : j ∈ l <;> by_cases hpj : s.phases j = Phase.pending <;>
            simp [hjl, hpj, hja]

/-- After the promise is settled, waking only turns waiters into
completed callers carrying the settled value. -/
theorem foldl_wake_resolved (l : List Nat) (s : GuardState) (r : Except String String)
    (hres : s.resolved = some r) :
    (l.foldl wakeStep s).registered = s.registered ∧
    (l.foldl wakeStep s).execCount = s.execCount ∧
    ∀ j, (l.foldl wakeStep s).phases j =
      if j ∈ l ∧ s.phases j = Phase.waiting then Phase.done r else s.phases j := by
  induction l generalizing s with
  | nil => exact ⟨rfl, rfl, fun j => by simp⟩
  | cons a l ih =>
    have hstep : wakeStep s a =
        (if s.phases a = Phase.waiting then { s with phases := phaseSet s.phases a (.done r) }
         else s) := by
      rw [wakeStep]
      rcases hpa : s.phases a with _ | _ | _ | q <;> simp [hpa, hres]
    have hres2 : (wakeStep s a).resolved = some r := by
      rw [hstep]; split <;> simp [hres]
    obtain ⟨h1, h2, h3⟩ := ih (wakeStep s a) hres2
    simp only [List.foldl_cons]
    refine ⟨?_, ?_, ?_⟩
    · rw [h1, hstep]; split <;> rfl
    · rw [h2, hstep]; split <;> rfl
    · intro j
      rw [h3 j, hstep]
      by_cases hpa : s.phases a = Phase.waiting
      · simp only [hpa, if_true]
        by_cases hja : j = a
        · subst hja
          simp [phaseSet, hpa, List.mem_cons]
        · have hps : phaseSet s.phases a (Phase.done r) j = s.phases j := by
            simp [phaseSet, hja]
          simp only [hps, List.mem_cons]
          by_cases hjl : j ∈ l <;> by_cases hpj : s.phases j = Phase.waiting <;>
            simp [hjl, hpj, hja]
      · simp only [hpa, if_false]
        by_cases hja : j = a
        · subst hja
          simp [List.mem_cons, hpa]
        · simp only [List.mem_cons]
          by_cases hjl : j ∈ l <;> by_cases hpj : s.phases j = Phase.waiting <;>
            simp [hjl, hpj, hja]

/-- Claim C9. For a key with no pre-existing cache entry, N concurrent
`download` calls whose identifiers normalize to that key (each arriving
while the single work execution is in flight) cause exactly one
execution of the download-strategy sequence; every caller ends holding
the outcome — or the propagated failure — of that one execution, and
the in-flight registration is removed when the execution completes,
whether it succeeded (`r = .ok _`) or failed (`r = .error _`). -/
theorem c9_stampede_single_execution (callers : List Nat) (r : Except String String)
    (hnd : callers.Nodup) (hne : callers ≠ []) :
    (runStampede callers r).execCount = 1 ∧
    (runStampede callers r).registered = false ∧
    (∀ i ∈ callers, (runStampede callers r).phases i = Phase.done r) := by
  rcases callers with _ | ⟨lead, rest⟩
  · exact absurd rfl hne
  · have hlead : lead ∉ rest := (List.nodup_cons.mp hnd).1
    have h0reg : (arriveStep initGuard lead).registered = true := rfl
    have h0cnt : (arriveStep initGuard lead).execCount = 1 := rfl
    have h0lead : (arriveStep initGuard lead).phases lead = Phase.runningWork := by
      simp [arriveStep, initGuard, phaseSet]
    have h0other : ∀ j, j ≠ lead → (arriveStep initGuard lead).phases j = Phase.pending := by
      intro j hj
      simp [arriveStep, initGuard, phaseSet, hj]
    obtain ⟨a1, a2, a3, a4⟩ :=
      foldl_arrive_registered rest (arriveStep initGuard lead) h0reg
    have hs1lead :
        (rest.foldl arriveStep (arriveStep initGuard lead)).phases lead =
          Phase.runningWork := by
      rw [a4 lead]
      simp [hlead, h0lead]
    have hs1rest : ∀ j ∈ rest,
        (rest.foldl arriveStep (arriveStep initGuard lead)).phases j = Phase.waiting := by
      intro j hj
      have hjlead : j ≠ lead := fun h => hlead (h ▸ hj)
      rw [a4 j]
      simp [hj, h0other j hjlead]
    have hfin : finishStep (rest.foldl arriveStep (arriveStep initGuard lead)) lead r =
        { rest.foldl arriveStep (arriveStep initGuard lead) with
            registered := false
            resolved := some r
            phases :=
              phaseSet (rest.foldl arriveStep (arriveStep initGuard lead)).phases lead
                (.done r) } := by
      rw [finishStep, if_pos hs1lead]
    obtain ⟨w1, w2, w3⟩ :=
      foldl_wake_resolved rest
        (finishStep (rest.foldl arriveStep (arriveStep initGuard lead)) lead r) r
        (by rw [hfin])
    have hrun : runStampede (lead :: rest) r =
        rest.foldl wakeStep
          (finishStep (rest.foldl arriveStep (arriveStep initGuard lead)) lead r) := rfl
    rw [hrun]
    refine ⟨?_, ?_, ?_⟩
    · rw [w2, hfin]
      simp only
      rw [a3, h0cnt]
    · rw [w1, hfin]
    · intro i hi
      rcases List.mem_cons.mp hi with hi | hi
      · subst hi
        rw [w3 i, hfin]
        simp [phaseSet]
      · rw [w3 i]
        have hilead : i ≠ lead := fun h => hlead (h ▸ hi)
        have hphase :
            (finishStep (rest.foldl arriveStep (arriveStep initGuard lead)) lead r).phases i =
              Phase.waiting := by
          rw [hfin]
          simp only [phaseSet, if_neg hilead]
          exact hs1rest i hi
        simp [hi, hphase]

/-- Witness for C9 with three concurrent callers and a successful
execution. -/
theorem c9_stampede_single_execution_witness :
    (runStampede [0, 1, 2] (.ok "https://cdn.example/video.mp4")).execCount = 1 ∧
    (runStampede [0, 1, 2] (.ok "https://cdn.example/video.mp4")).registered = false ∧
    (runStampede [0, 1, 2] (.ok "https://cdn.example/video.mp4")).phases 2 =
      Phase.done (.ok "https://cdn.example/video.mp4") := by
  have h := c9_stampede_single_execution [0, 1, 2] (.ok "https://cdn.example/video.mp4")
    (by decide) (by decide)
  exact ⟨h.1, h.2.1, h.2.2 2 (by decide)⟩

/-- Witness for the amended C8: a thrown first strategy is followed by
the delay, and a no-URL first strategy is not. -/
theorem c8_amended_delay_placement_witness :
    (galleryExecute (fun _ => .err ⟨"boom", ""⟩)).2.take 2 =
      [.exec "gallery-dl" "direct_url_extraction", .delayMs 1500] ∧
    (galleryExecute c8Oracle).2.take 2 =
      [.exec "gallery-dl" "direct_url_extraction",
       .exec "gallery-dl" "json_metadata_extraction"] := by
  constructor
  · exact (c8_amended_delay_placement (fun _ => .err ⟨"boom", ""⟩) ⟨"boom", ""⟩ "").1 rfl
  · exact (c8_amended_delay_placement c8Oracle ⟨"boom", ""⟩ "nothing").2.2.1 rfl (by decide)

/-! ## Claim C3 — normalization and cache keys -/

theorem dropWhile_idem (p : α → Bool) (l : List α) :
    (l.dropWhile p).dropWhile p = l.dropWhile p := by
  induction l with
  | nil => rfl
  | cons a l ih =>
    by_cases h : p a
    · simp [List.dropWhile_cons, h, ih]
    · simp [List.dropWhile_cons, h]

/-- Trimming is idempotent. -/
theorem trimChars_idem (l : List Char) : trimChars (trimChars l) = trimChars l := by
  rw [trimChars, trimChars]
  have hinner :
      ((((l.dropWhile isWsChar).reverse.dropWhile isWsChar).reverse).dropWhile isWsChar) =
        ((l.dropWhile isWsChar).reverse.dropWhile isWsChar).reverse := by
    rcases hC : ((l.dropWhile isWsChar).reverse.dropWhile isWsChar).reverse with _ | ⟨c, t⟩
    · rfl
    · have hpre : ((l.dropWhile isWsChar).reverse.dropWhile isWsChar).reverse <+:
          ((l.dropWhile isWsChar).reverse).reverse :=
        List.reverse_prefix.mpr (List.dropWhile_suffix isWsChar)
      rw [List.reverse_reverse] at hpre
      rw [hC] at hpre
      obtain ⟨tail, htail⟩ := hpre
      have hhead : (l.dropWhile isWsChar).head? = some c := by
        rw [← htail]; rfl
      have hcp : isWsChar c = false := by
        have hh := List.head?_dropWhile_not isWsChar l
        rw [hhead] at hh
        exact hh
      simp [List.dropWhile_cons, hcp]
  rw [hinner, List.reverse_reverse, dropWhile_idem]

/-- All characters kept by `takeWhile` satisfy the predicate, and an
appended failing character is dropped. -/
theorem takeWhile_all_append (p : α → Bool) (l : List α) (h : ∀ c ∈ l, p c = true)
    (c0 : α) (h0 : p c0 = false) : (l ++ [c0]).takeWhile p = l := by
  rw [List.takeWhile_append_of_pos h]
  simp [List.takeWhile_cons, h0]

theorem isIdChar_ne_slash (c : Char) (h : isIdChar c = true) : charCI '/' c = false := by
  have hc : c ≠ '/' := by
    intro he
    subst he
    exact absurd h (by decide)
  have hb : (c == '/') = false := by simp [hc]
  show (c == '/' || ((97 ≤ '/'.toNat && '/'.toNat ≤ 122) && c.toNat == '/'.toNat - 32)) = false
  rw [hb]
  rfl

theorem isKeyChar_of_isIdChar (c : Char) (h : isIdChar c = true) : isKeyChar c = true := by
  have h1 : c ≠ '/' := by intro he; subst he; exact absurd h (by decide)
  have h2 : c ≠ '?' := by intro he; subst he; exact absurd h (by decide)
  have h3 : c ≠ '#' := by intro he; subst he; exact absurd h (by decide)
  simp [isKeyChar, h1, h2, h3]

/-- Matching a lower-case literal, then `/`, against an id-character
run followed by `/` either fails or consumes everything. -/
theorem ciStrip_pat_slash (pat : List Char) (l : List Char)
    (hl : ∀ c ∈ l, isIdChar c = true) :
    ciStrip (pat ++ ['/']) (l ++ ['/']) = none ∨
      ciStrip (pat ++ ['/']) (l ++ ['/']) = some [] := by
  induction pat generalizing l with
  | nil =>
    rcases l with _ | ⟨c, t⟩
    · right; rfl
    · left
      have hc := isIdChar_ne_slash c (hl c (List.mem_cons_self c t))
      show (if charCI '/' c then ciStrip [] (t ++ ['/']) else none) = none
      rw [hc]
      rfl
  | cons p ps ih =>
    rcases l with _ | ⟨c, t⟩
    · left
      show (if charCI p '/' then ciStrip (ps ++ ['/']) [] else none) = none
      split
      · rcases ps with _ | ⟨q, qs⟩ <;> rfl
      · rfl
    · have ht : ∀ x ∈ t, isIdChar x = true := fun x hx => hl x (List.mem_cons_of_mem c hx)
      show (if charCI p c then ciStrip (ps ++ ['/']) (t ++ ['/']) else none) = none ∨
        (if charCI p c then ciStrip (ps ++ ['/']) (t ++ ['/']) else none) = some []
      by_cases hpc : charCI p c = true
      · rw [if_pos hpc]
        exact ih t ht
      · rw [if_neg (by simp [hpc])]
        left; rfl

/-- At a position whose remaining text is `/<idchars>/`, the
`\/reels?\/` pattern of `normalizeUrl` cannot produce a nonempty
capture. -/
theorem reelIdAt_slash_idlist (l : List Char) (h : ∀ c ∈ l, isIdChar c = true) :
    reelIdAt ('/' :: (l ++ ['/'])) = none := by
  have h1 := ciStrip_pat_slash "reels".data l h
  have h2 := ciStrip_pat_slash "reel".data l h
  have e1 : ciStrip "/reels/".data ('/' :: (l ++ ['/'])) =
      ciStrip ("reels".data ++ ['/']) (l ++ ['/']) := rfl
  have e2 : ciStrip "/reel/".data ('/' :: (l ++ ['/'])) =
      ciStrip ("reel".data ++ ['/']) (l ++ ['/']) := rfl
  rw [reelIdAt, e1, e2]
  rcases h1 with h1 | h1 <;> rcases h2 with h2 | h2 <;> rw [h1, h2] <;> rfl

/-- A position starting with a non-`/` character cannot match
`\/reels?\/`. -/
theorem reelIdAt_cons_ne (c : Char) (x : List Char) (hc : charCI '/' c = false) :
    reelIdAt (c :: x) = none := by
  have e1 : ciStrip "/reels/".data (c :: x) = none := by
    show (if charCI '/' c then ciStrip "reels/".data x else none) = none
    rw [hc]; rfl
  have e2 : ciStrip "/reel/".data (c :: x) = none := by
    show (if charCI '/' c then ciStrip "reel/".data x else none) = none
    rw [hc]; rfl
  rw [reelIdAt, e1, e2]

/-- Scanning an id-character run followed by a final `/` finds no reel
match. -/
theorem scanReelId_idlist (l : List Char) (h : ∀ c ∈ l, isIdChar c = true) :
    scanReelId (l ++ ['/']) = none := by
  induction l with
  | nil => rfl
  | cons c t ih =>
    have hstep : scanReelId ((c :: t) ++ ['/']) =
        (reelIdAt (c :: (t ++ ['/']))).orElse (fun _ => scanReelId (t ++ ['/'])) := rfl
    rw [hstep, reelIdAt_cons_ne c _ (isIdChar_ne_slash c (h c (List.mem_cons_self c t)))]
    have ht : ∀ x ∈ t, isIdChar x = true := fun x hx => h x (List.mem_cons_of_mem c hx)
    rw [ih ht]
    rfl

/-- The canonical post form produced by `normalizeUrl` contains no
further reel match: normalization is idempotent on its own output. -/
theorem scanReelId_canonical (cap : List Char) (h : ∀ c ∈ cap, isIdChar c = true) :
    scanReelId ("https://www.instagram.com/p/".data ++ cap ++ ['/']) = none := by
  have hjump : scanReelId ("https://www.instagram.com/p/".data ++ cap ++ ['/']) =
      (reelIdAt ('/' :: (cap ++ ['/']))).orElse (fun _ => scanReelId (cap ++ ['/'])) := rfl
  rw [hjump, reelIdAt_slash_idlist cap h]
  exact scanReelId_idlist cap h

/-- A successful reel scan returns a nonempty capture of id
characters. -/
theorem scanReelId_sound (l cap : List Char) (h : scanReelId l = some cap) :
    cap ≠ [] ∧ ∀ c ∈ cap, isIdChar c = true := by
  induction l with
  | nil => exact absurd h (by simp [scanReelId])
  | cons a t ih =>
    have hstep : scanReelId (a :: t) =
        (reelIdAt (a :: t)).orElse (fun _ => scanReelId t) := rfl
    rw [hstep] at h
    rcases hat : reelIdAt (a :: t) with _ | cap2
    · rw [hat] at h
      exact ih h
    · rw [hat] at h
      have hcap : cap2 = cap := by
        simpa [Option.orElse] using h
      subst hcap
      rw [reelIdAt] at hat
      rcases h1 : ciStrip "/reels/".data (a :: t) with _ | rest
      · rw [h1] at hat
        rcases h2 : ciStrip "/reel/".data (a :: t) with _ | rest2
        · rw [h2] at hat; exact absurd hat (by simp)
        · rw [h2] at hat
          simp only at hat
          rcases hem : (rest2.takeWhile isIdChar).isEmpty with _ | _
          · rw [if_neg (by simp [hem])] at hat
            have : rest2.takeWhile isIdChar = cap2 := by
              simpa using hat
            subst this
            refine ⟨?_, fun c hc => List.mem_takeWhile_imp hc⟩
            intro hnil
            rw [hnil] at hem
            simp at hem
          · rw [if_pos (by simp [hem])] at hat
            exact absurd hat (by simp)
      · rw [h1] at hat
        simp only at hat
        rcases hem : (rest.takeWhile isIdChar).isEmpty with _ | _
        · rw [if_neg (by simp [hem])] at hat
          have : rest.takeWhile isIdChar = cap2 := by
            simpa using hat
          subst this
          refine ⟨?_, fun c hc => List.mem_takeWhile_imp hc⟩
          intro hnil
          rw [hnil] at hem
          simp at hem
        · rw [if_pos (by simp [hem])] at hat
          exact absurd hat (by simp)

/-- Trimming fixes any list of the shape `h<mid>/`. -/
theorem trimChars_wrap (mid : List Char) :
    trimChars (('h' :: mid) ++ ['/']) = ('h' :: mid) ++ ['/'] := by
  have h1 : isWsChar 'h' = false := rfl
  have h2 : isWsChar '/' = false := rfl
  rw [trimChars]
  rw [show ('h' :: mid) ++ ['/'] = 'h' :: (mid ++ ['/']) from rfl]
  rw [List.dropWhile_cons_of_neg (by simp [h1])]
  rw [show 'h' :: (mid ++ ['/']) = ('h' :: mid) ++ ['/'] from rfl]
  rw [List.reverse_append]
  rw [show (['/'].reverse ++ ('h' :: mid).reverse) = '/' :: ('h' :: mid).reverse from rfl]
  rw [List.dropWhile_cons_of_neg (by simp [h2])]
  rw [show ('/' :: ('h' :: mid).reverse) = ['/'] ++ ('h' :: mid).reverse from rfl]
  rw [List.reverse_append, List.reverse_reverse]
  rfl

/-- `normalizeUrl` on the canonical reel form with an id-character
capture rewrites it to the canonical post form. -/
theorem normalizeUrl_reelForm (id : List Char) (hne : id ≠ [])
    (hid : ∀ c ∈ id, isIdChar c = true) :
    normalizeUrl (String.mk ("https://www.instagram.com/reel/".data ++ id ++ ['/'])) =
      String.mk ("https://www.instagram.com/p/".data ++ id ++ ['/']) := by
  have htrim : trimChars ("https://www.instagram.com/reel/".data ++ id ++ ['/']) =
      "https://www.instagram.com/reel/".data ++ id ++ ['/'] :=
    trimChars_wrap ("ttps://www.instagram.com/reel/".data ++ id)
  have hjump : scanReelId ("https://www.instagram.com/reel/".data ++ id ++ ['/']) =
      (reelIdAt ('/' :: 'r' :: 'e' :: 'e' :: 'l' :: '/' :: (id ++ ['/']))).orElse
        (fun _ => scanReelId ('r' :: 'e' :: 'e' :: 'l' :: '/' :: (id ++ ['/']))) := rfl
  have hat : reelIdAt ('/' :: 'r' :: 'e' :: 'e' :: 'l' :: '/' :: (id ++ ['/'])) =
      some id := by
    have e0 : reelIdAt ('/' :: 'r' :: 'e' :: 'e' :: 'l' :: '/' :: (id ++ ['/'])) =
        (if ((id ++ ['/']).takeWhile isIdChar).isEmpty then none
         else some ((id ++ ['/']).takeWhile isIdChar)) := rfl
    rw [e0, takeWhile_all_append isIdChar id hid '/' (by decide)]
    rcases id with _ | ⟨c, t⟩
    · exact absurd rfl hne
    · rfl
  have hscan : scanReelId ("https://www.instagram.com/reel/".data ++ id ++ ['/']) =
      some id := by
    rw [hjump, hat]
    rfl
  rw [normalizeUrl]
  rw [show (String.mk ("https://www.instagram.com/reel/".data ++ id ++ ['/'])).data =
      "https://www.instagram.com/reel/".data ++ id ++ ['/'] from rfl]
  rw [htrim, hscan]

/-- Same for the `/reels/` spelling. -/
theorem normalizeUrl_reelsForm (id : List Char) (hne : id ≠ [])
    (hid : ∀ c ∈ id, isIdChar c = true) :
    normalizeUrl (String.mk ("https://www.instagram.com/reels/".data ++ id ++ ['/'])) =
      String.mk ("https://www.instagram.com/p/".data ++ id ++ ['/']) := by
  have htrim : trimChars ("https://www.instagram.com/reels/".data ++ id ++ ['/']) =
      "https://www.instagram.com/reels/".data ++ id ++ ['/'] :=
    trimChars_wrap ("ttps://www.instagram.com/reels/".data ++ id)
  have hjump : scanReelId ("https://www.instagram.com/reels/".data ++ id ++ ['/']) =
      (reelIdAt ('/' :: 'r' :: 'e' :: 'e' :: 'l' :: 's' :: '/' :: (id ++ ['/']))).orElse
        (fun _ => scanReelId ('r' :: 'e' :: 'e' :: 'l' :: 's' :: '/' :: (id ++ ['/']))) := rfl
  have hat : reelIdAt ('/' :: 'r' :: 'e' :: 'e' :: 'l' :: 's' :: '/' :: (id ++ ['/'])) =
      some id := by
    have e0 : reelIdAt ('/' :: 'r' :: 'e' :: 'e' :: 'l' :: 's' :: '/' :: (id ++ ['/'])) =
        (if ((id ++ ['/']).takeWhile isIdChar).isEmpty then none
         else some ((id ++ ['/']).takeWhile isIdChar)) := rfl
    rw [e0, takeWhile_all_append isIdChar id hid '/' (by decide)]
    rcases id with _ | ⟨c, t⟩
    · exact absurd rfl hne
    · rfl
  have hscan : scanReelId ("https://www.instagram.com/reels/".data ++ id ++ ['/']) =
      some id := by
    rw [hjump, hat]
    rfl
  rw [normalizeUrl]
  rw [show (String.mk ("https://www.instagram.com/reels/".data ++ id ++ ['/'])).data =
      "https://www.instagram.com/reels/".data ++ id ++ ['/'] from rfl]
  rw [htrim, hscan]

/-- `normalizeUrl` fixes the canonical post form. -/
theorem normalizeUrl_postForm (id : List Char) (hid : ∀ c ∈ id, isIdChar c = true) :
    normalizeUrl (String.mk ("https://www.instagram.com/p/".data ++ id ++ ['/'])) =
      String.mk ("https://www.instagram.com/p/".data ++ id ++ ['/']) := by
  have htrim : trimChars ("https://www.instagram.com/p/".data ++ id ++ ['/']) =
      "https://www.instagram.com/p/".data ++ id ++ ['/'] :=
    trimChars_wrap ("ttps://www.instagram.com/p/".data ++ id)
  rw [normalizeUrl]
  rw [show (String.mk ("https://www.instagram.com/p/".data ++ id ++ ['/'])).data =
      "https://www.instagram.com/p/".data ++ id ++ ['/'] from rfl]
  rw [htrim, scanReelId_canonical id hid]

/-- The `\/p\/` pattern of `extractCacheKey` captures the id from the
canonical post form. -/
theorem scanPId_canonical (id : List Char) (hne : id ≠ [])
    (hid : ∀ c ∈ id, isIdChar c = true) :
    scanPId ("https://www.instagram.com/p/".data ++ id ++ ['/']) = some id := by
  have hjump : scanPId ("https://www.instagram.com/p/".data ++ id ++ ['/']) =
      (pIdAt ('/' :: 'p' :: '/' :: (id ++ ['/']))).orElse
        (fun _ => scanPId ('p' :: '/' :: (id ++ ['/']))) := rfl
  have hkey : ∀ c ∈ id, isKeyChar c = true :=
    fun c hc => isKeyChar_of_isIdChar c (hid c hc)
  have hat : pIdAt ('/' :: 'p' :: '/' :: (id ++ ['/'])) = some id := by
    have e0 : pIdAt ('/' :: 'p' :: '/' :: (id ++ ['/'])) =
        (if ((id ++ ['/']).takeWhile isKeyChar).isEmpty then none
         else some ((id ++ ['/']).takeWhile isKeyChar)) := rfl
    rw [e0, takeWhile_all_append isKeyChar id hkey '/' (by decide)]
    rcases id with _ | ⟨c, t⟩
    · exact absurd rfl hne
    · rfl
  rw [hjump, hat]
  rfl

/-- `extractCacheKey` of the canonical post form is `post_<id>`. -/
theorem extractCacheKey_canonical (id : List Char) (hne : id ≠ [])
    (hid : ∀ c ∈ id, isIdChar c = true) :
    extractCacheKey (String.mk ("https://www.instagram.com/p/".data ++ id ++ ['/'])) =
      String.mk ("post_".data ++ id) := by
  rw [extractCacheKey]
  rw [show (String.mk ("https://www.instagram.com/p/".data ++ id ++ ['/'])).data =
      "https://www.instagram.com/p/".data ++ id ++ ['/'] from rfl]
  rw [scanPId_canonical id hne hid]
  rfl

/-- Claim C3. Normalizing and then computing the cache key is
deterministic and idempotent (`normalizeUrl` is a pure function fixed
on its own output, so repeating it never changes the key), the
`/reel(s)/<id>` surface variants yield the same key as the `/p/<id>`
variant of the same resource, and in particular the input
`"https://example.com/reel/XYZ789/"` normalizes to the canonical post
form and yields cache key `"post_XYZ789"`. -/
theorem c3_normalize_cachekey_idempotent :
    (∀ u : String, normalizeUrl (normalizeUrl u) = normalizeUrl u) ∧
    (∀ u : String,
      extractCacheKey (normalizeUrl (normalizeUrl u)) = extractCacheKey (normalizeUrl u)) ∧
    (∀ id : List Char, id ≠ [] → (∀ c ∈ id, isIdChar c = true) →
      extractCacheKey (normalizeUrl
          (String.mk ("https://www.instagram.com/reel/".data ++ id ++ ['/']))) =
        String.mk ("post_".data ++ id) ∧
      extractCacheKey (normalizeUrl
          (String.mk ("https://www.instagram.com/reels/".data ++ id ++ ['/']))) =
        String.mk ("post_".data ++ id) ∧
      extractCacheKey (normalizeUrl
          (String.mk ("https://www.instagram.com/p/".data ++ id ++ ['/']))) =
        String.mk ("post_".data ++ id)) ∧
    (normalizeUrl "https://example.com/reel/XYZ789/" = "https://www.instagram.com/p/XYZ789/" ∧
     extractCacheKey (normalizeUrl "https://example.com/reel/XYZ789/") = "post_XYZ789") := by
  have hidem : ∀ u : String, normalizeUrl (normalizeUrl u) = normalizeUrl u := by
    intro u
    rcases hscan : scanReelId (trimChars u.data) with _ | cap
    · have h1 : normalizeUrl u = String.mk (trimChars u.data) := by
        rw [normalizeUrl, hscan]
      rw [h1]
      have h2 : scanReelId (trimChars (String.mk (trimChars u.data)).data) = none := by
        show scanReelId (trimChars (trimChars u.data)) = none
        rw [trimChars_idem, hscan]
      rw [normalizeUrl, h2]
      show String.mk (trimChars (trimChars u.data)) = String.mk (trimChars u.data)
      rw [trimChars_idem]
    · have h1 : normalizeUrl u =
          String.mk ("https://www.instagram.com/p/".data ++ cap ++ ['/']) := by
        rw [normalizeUrl, hscan]
      rw [h1]
      obtain ⟨hne, hcap⟩ := scanReelId_sound (trimChars u.data) cap hscan
      exact normalizeUrl_postForm cap hcap
  refine ⟨hidem, fun u => by rw [hidem u], ?_, ?_, ?_⟩
  · intro id hne hid
    refine ⟨?_, ?_, ?_⟩
    · rw [normalizeUrl_reelForm id hne hid]
      exact extractCacheKey_canonical id hne hid
    · rw [normalizeUrl_reelsForm id hne hid]
      exact extractCacheKey_canonical id hne hid
    · rw [normalizeUrl_postForm id hid]
      exact extractCacheKey_canonical id hne hid
  · decide
  · decide

/-- Witness for C3 at the id `XYZ789` and the concrete scenario
input. -/
theorem c3_normalize_cachekey_idempotent_witness :
    extractCacheKey (normalizeUrl
        (String.mk ("https://www.instagram.com/reel/".data ++ "XYZ789".data ++ ['/']))) =
      String.mk ("post_".data ++ "XYZ789".data) ∧
    normalizeUrl (normalizeUrl "https://example.com/reel/XYZ789/") =
      normalizeUrl "https://example.com/reel/XYZ789/" := by
  constructor
  · exact (c3_normalize_cachekey_idempotent.2.2.1 "XYZ789".data (by decide) (by decide)).1
  · exact c3_normalize_cachekey_idempotent.1 "https://example.com/reel/XYZ789/"

/-! ## Orchestrator-level lemmas (used by C1, C2, C10) -/

/-- The outcome and the event trace of the strategy chain do not depend
on the store contents, and depend on the world only through the two
tool oracles. -/
theorem execDSGo_congr (w w2 : World) (hy : w.ytExec = w2.ytExec)
    (hg : w.galleryExec = w2.galleryExec) (k n o : String) :
    ∀ (tools : List ToolId) (last : Option ToolResult)
      (s s2 : List (String × StoredValue)),
      (execDSGo w k n o tools last s).1 = (execDSGo w2 k n o tools last s2).1 ∧
      (execDSGo w k n o tools last s).2.2 = (execDSGo w2 k n o tools last s2).2.2 := by
  intro tools
  induction tools with
  | nil =>
    intro last s s2
    constructor
    · rfl
    · rfl
  | cons t rest ih =>
    intro last s s2
    have htool : toolExecute w t = toolExecute w2 t := by
      cases t
      · simp [toolExecute, hy]
      · simp [toolExecute, hg]
    by_cases hch : canHandleUrl n = true
    · simp only [execDSGo, hch, if_true, htool]
      by_cases hs : (toolExecute w2 t).1.success = true
      · simp only [hs, if_true]
        exact ⟨trivial, trivial⟩
      · simp only [Bool.not_eq_true] at hs
        simp only [hs, Bool.false_eq_true, if_false]
        obtain ⟨ih1, ih2⟩ := ih (some (toolExecute w2 t).1) s s2
        exact ⟨ih1, by rw [ih2]⟩
    · simp only [Bool.not_eq_true] at hch
      simp only [execDSGo, hch, Bool.false_eq_true, if_false]
      exact ih last s s2

/-- A chain that returns a success outcome built it from the first
successful tool: the outcome is a fresh (non-cached) success for the
original URL, and — when `redis.set` does not throw — the store gained
exactly the JSON record of the extracted URL under the cache key. -/
theorem execDSGo_ok_shape (w : World) (k n o : String) :
    ∀ (tools : List ToolId) (last : Option ToolResult)
      (store st2 : List (String × StoredValue)) (out : DownloadOutcome) (tr : List Event),
      execDSGo w k n o tools last store = (.ok out, st2, tr) →
      out.success = true ∧ out.cached = false ∧ out.originalUrl = o ∧
      (w.redisSetOk = true →
        ∃ T S, st2 = storeSet store k (.jsonRec out.downloadUrl T S o)) ∧
      (w.redisSetOk = false → st2 = store) := by
  intro tools
  induction tools with
  | nil =>
    intro last store st2 out tr h
    simp only [execDSGo, Prod.mk.injEq] at h
    exact absurd h.1 (by simp)
  | cons t rest ih =>
    intro last store st2 out tr h
    by_cases hch : canHandleUrl n = true
    · by_cases hs : (toolExecute w t).1.success = true
      · simp only [execDSGo, hch, if_true, hs, Prod.mk.injEq] at h
        obtain ⟨h1, h2, h3⟩ := h
        have hout := Except.ok.inj h1
        refine ⟨?_, ?_, ?_, ?_, ?_⟩
        · rw [← hout]
        · rw [← hout]
        · rw [← hout]
        · intro hset
          refine ⟨(toolExecute w t).1.tool, (toolExecute w t).1.strategy, ?_⟩
          rw [hset] at h2
          rw [if_pos rfl] at h2
          rw [← hout]
          exact h2.symm
        · intro hset
          rw [hset] at h2
          simp only [Bool.false_eq_true, if_false] at h2
          exact h2.symm
      · simp only [Bool.not_eq_true] at hs
        simp only [execDSGo, hch, if_true, hs, Bool.false_eq_true, if_false,
          Prod.mk.injEq] at h
        obtain ⟨h1, h2, h3⟩ := h
        have hfull : execDSGo w k n o rest (some (toolExecute w t).1) store =
            (.ok out, st2,
             (execDSGo w k n o rest (some (toolExecute w t).1) store).2.2) := by
          have hsplit : execDSGo w k n o rest (some (toolExecute w t).1) store =
              ((execDSGo w k n o rest (some (toolExecute w t).1) store).1,
               (execDSGo w k n o rest (some (toolExecute w t).1) store).2.1,
               (execDSGo w k n o rest (some (toolExecute w t).1) store).2.2) := rfl
          rw [hsplit, h1, h2]
        exact ih (some (toolExecute w t).1) store st2 out _ hfull
    · simp only [Bool.not_eq_true] at hch
      simp only [execDSGo, hch, Bool.false_eq_true, if_false] at h
      exact ih last store st2 out tr h

/-! ## Claim C1 — total exhaustion yields a structured outcome -/

/-- Claim C1 counterexample. The claim says the outcome's category
reflects the last classified error of the chain.  In `failWorld` every
strategy of both tools fails with stderr `"429"`, so the last
strategy-set failure is classified `rate_limit`; but the orchestrator
re-classifies only the thrown message text (`"All download strategies
failed. Last error: boom"`), which carries no marker, so the outcome's
category is `unknown`, not `rate_limit`. -/
theorem c1_counterexample :
    (galleryExecute failWorld.galleryExec).1.errorCategory = some "rate_limit" ∧
    (download failWorld [] "https://www.instagram.com/p/ABC123/").1.success = false ∧
    (download failWorld [] "https://www.instagram.com/p/ABC123/").1.category =
      some "unknown" := by
  refine ⟨by decide, by decide, by decide⟩

/-- Claim C1, amended. For every input whose strategies all fail across
every tool, `download` returns a structured failure outcome — with
`success = false` and a category, a user message and a status hint all
present — and never propagates an unhandled fault; its category is the
orchestrator's case-sensitive re-classification of the final error
message (which embeds the last strategy-set failure's message text),
and may therefore differ from the strategy-level classification of the
last error. -/
theorem c1_exhaustion_structured_failure (w : World) (store : List (String × StoredValue))
    (url m : String)
    (hv : isValidInstagramUrl url = true)
    (hm : cacheGetModel (w.redisGetFails (extractCacheKey (normalizeUrl url))) store
      (extractCacheKey (normalizeUrl url)) = none)
    (hch : canHandleUrl (normalizeUrl url) = true)
    (hy : (ytExecute w.ytExec).1.success = false)
    (hg : (galleryExecute w.galleryExec).1.success = false)
    (he : (galleryExecute w.galleryExec).1.error = some m) :
    (download w store url).1 =
      createErrorResponse ("All download strategies failed. Last error: " ++ m) url ∧
    (download w store url).1.success = false ∧
    ((download w store url).1.error).isSome = true ∧
    ((download w store url).1.category).isSome = true ∧
    ((download w store url).1.statusCode).isSome = true ∧
    (download w store url).1.category =
      some (classifyMessage ("All download strategies failed. Last error: " ++ m)).1 := by
  have h1 : (execDSGo w (extractCacheKey (normalizeUrl url)) (normalizeUrl url) url
      orchTools none store).1 =
      .error ("All download strategies failed. Last error: " ++ m) := by
    simp only [execDSGo, orchTools, toolExecute, hch, if_true, hy, hg,
      Bool.false_eq_true, if_false, he]
  rcases hE : execDSGo w (extractCacheKey (normalizeUrl url)) (normalizeUrl url) url
      orchTools none store with ⟨e, st2, tr⟩
  rw [hE] at h1
  simp only at h1
  subst h1
  have hd : download w store url =
      (createErrorResponse ("All download strategies failed. Last error: " ++ m) url, st2,
       Event.cacheGet (extractCacheKey (normalizeUrl url)) :: tr) := by
    rw [download, if_pos hv, hm, hE]
  rw [hd]
  exact ⟨rfl, rfl, rfl, rfl, rfl, rfl⟩

/-- Witness for the amended C1 in `failWorld`. -/
theorem c1_exhaustion_structured_failure_witness :
    (download failWorld [] "https://www.instagram.com/p/ABC123/").1.success = false ∧
    (download failWorld [] "https://www.instagram.com/p/ABC123/").1.category =
      some (classifyMessage "All download strategies failed. Last error: boom").1 := by
  have h := c1_exhaustion_structured_failure failWorld []
    "https://www.instagram.com/p/ABC123/" "boom"
    (by decide) (by decide) (by decide) (by decide) (by decide) (by decide)
  exact ⟨h.2.1, h.2.2.2.2.2⟩

/-! ## Claim C2 — cache round trip -/

theorem storeLookup_set_self (st : List (String × StoredValue)) (k : String)
    (v : StoredValue) : storeLookup (storeSet st k v) k = some v := by
  simp [storeLookup, storeSet, List.find?]

/-- Claim C2. After a successful (non-cached) orchestration for a key,
stored because `redis.set` did not throw, a subsequent `download` for
an equivalent raw identifier — one normalizing to the same cache key —
returns `cached = true` with the very `downloadUrl` that was stored,
and no external tool is invoked: its whole event trace is the single
cache read.  (A key present in the store models an unexpired record;
redis expires records itself.) -/
theorem c2_cache_round_trip (w1 w2 : World) (store : List (String × StoredValue))
    (url1 url2 : String)
    (hset : w1.redisSetOk = true)
    (hv2 : isValidInstagramUrl url2 = true)
    (hkey : extractCacheKey (normalizeUrl url2) = extractCacheKey (normalizeUrl url1))
    (hget2 : w2.redisGetFails (extractCacheKey (normalizeUrl url1)) = false)
    (hs : (download w1 store url1).1.success = true)
    (hc : (download w1 store url1).1.cached = false) :
    (download w2 (download w1 store url1).2.1 url2).1.success = true ∧
    (download w2 (download w1 store url1).2.1 url2).1.cached = true ∧
    (download w2 (download w1 store url1).2.1 url2).1.downloadUrl =
      (download w1 store url1).1.downloadUrl ∧
    (download w2 (download w1 store url1).2.1 url2).2.2 =
      [Event.cacheGet (extractCacheKey (normalizeUrl url2))] := by
  by_cases hv1 : isValidInstagramUrl url1 = true
  · rcases hcache : cacheGetModel (w1.redisGetFails (extractCacheKey (normalizeUrl url1)))
        store (extractCacheKey (normalizeUrl url1)) with _ | rec
    · rcases hE : execDSGo w1 (extractCacheKey (normalizeUrl url1)) (normalizeUrl url1) url1
          orchTools none store with ⟨e, st2, tr⟩
      cases e with
      | error msg =>
        have hd1 : download w1 store url1 =
            (createErrorResponse msg url1, st2,
             Event.cacheGet (extractCacheKey (normalizeUrl url1)) :: tr) := by
          rw [download, if_pos hv1, hcache, hE]
        rw [hd1] at hs
        exact absurd hs (by simp [createErrorResponse])
      | ok out =>
        have hd1 : download w1 store url1 =
            (out, st2, Event.cacheGet (extractCacheKey (normalizeUrl url1)) :: tr) := by
          rw [download, if_pos hv1, hcache, hE]
        obtain ⟨o1, o2, o3, o4, o5⟩ :=
          execDSGo_ok_shape w1 (extractCacheKey (normalizeUrl url1)) (normalizeUrl url1)
            url1 orchTools none store st2 out tr hE
        obtain ⟨T, S, hst2⟩ := o4 hset
        have hlook : cacheGetModel
            (w2.redisGetFails (extractCacheKey (normalizeUrl url2)))
            st2 (extractCacheKey (normalizeUrl url2)) =
            some ⟨out.downloadUrl, T, S⟩ := by
          rw [hkey, hst2]
          simp [cacheGetModel, hget2, storeLookup_set_self]
        have hd2 : download w2 st2 url2 =
            ({ success := true, downloadUrl := out.downloadUrl, cached := true,
               originalUrl := url2 }, st2,
             [Event.cacheGet (extractCacheKey (normalizeUrl url2))]) := by
          rw [download, if_pos hv2, hlook]
        rw [hd1, hd2]
        exact ⟨rfl, rfl, rfl, rfl⟩
    · have hd1 : download w1 store url1 =
          ({ success := true, downloadUrl := rec.downloadUrl, cached := true,
             originalUrl := url1 }, store,
           [Event.cacheGet (extractCacheKey (normalizeUrl url1))]) := by
        rw [download, if_pos hv1, hcache]
      rw [hd1] at hc
      exact absurd hc (by simp)
  · have hd1 : download w1 store url1 =
        (createErrorResponse "Invalid Instagram URL. Supported: /p/, /reel(s)/, /stories/."
          url1, store, []) := by
      rw [download, if_neg hv1]
    rw [hd1] at hs
    exact absurd hs (by simp [createErrorResponse])

/-- Witness for C2: a reel identifier and the equivalent post
identifier share the key `post_XYZ789`; the second call is served from
the cache with the stored URL and an empty tool trace. -/
theorem c2_cache_round_trip_witness :
    (download okWorld
        (download okWorld [] "https://www.instagram.com/reel/XYZ789/").2.1
        "https://www.instagram.com/p/XYZ789/").1.cached = true ∧
    (download okWorld
        (download okWorld [] "https://www.instagram.com/reel/XYZ789/").2.1
        "https://www.instagram.com/p/XYZ789/").1.downloadUrl =
      (download okWorld [] "https://www.instagram.com/reel/XYZ789/").1.downloadUrl := by
  have h := c2_cache_round_trip okWorld okWorld []
    "https://www.instagram.com/reel/XYZ789/" "https://www.instagram.com/p/XYZ789/"
    (by decide) (by decide) (by decide) (by decide) (by decide) (by decide)
  exact ⟨h.2.1, h.2.2.1⟩

/-! ## Claim C10 — store faults never change the outcome shape -/

/-- Claim C10. An exception thrown by the key-value store never changes a
call's outcome shape: a failing store read is absorbed by the cache
layer and the call behaves exactly — same outcome, same event trace —
as a call that misses the cache (first part); and when the extraction
chain succeeds but the store write throws, the call still returns the
success outcome with the extracted `downloadUrl`, leaving the store
unchanged (second part). -/
theorem c10_store_faults_absorbed :
    (∀ (w w2 : World) (s s2 : List (String × StoredValue)) (url : String),
      w.ytExec = w2.ytExec → w.galleryExec = w2.galleryExec →
      w.redisGetFails (extractCacheKey (normalizeUrl url)) = true →
      cacheGetModel (w2.redisGetFails (extractCacheKey (normalizeUrl url))) s2
        (extractCacheKey (normalizeUrl url)) = none →
      (download w s url).1 = (download w2 s2 url).1 ∧
      (download w s url).2.2 = (download w2 s2 url).2.2) ∧
    (∀ (w : World) (s : List (String × StoredValue)) (url : String),
      isValidInstagramUrl url = true →
      cacheGetModel (w.redisGetFails (extractCacheKey (normalizeUrl url))) s
        (extractCacheKey (normalizeUrl url)) = none →
      w.redisSetOk = false →
      canHandleUrl (normalizeUrl url) = true →
      ((ytExecute w.ytExec).1.success = true ∨
        ((ytExecute w.ytExec).1.success = false ∧
         (galleryExecute w.galleryExec).1.success = true)) →
      (download w s url).1.success = true ∧
      (download w s url).1.cached = false ∧
      (download w s url).1.downloadUrl =
        (if (ytExecute w.ytExec).1.success then (ytExecute w.ytExec).1.downloadUrl
         else (galleryExecute w.galleryExec).1.downloadUrl) ∧
      (download w s url).2.1 = s) := by
  constructor
  · intro w w2 s s2 url hyEq hgEq hfail h2
    by_cases hv : isValidInstagramUrl url = true
    · have hma : cacheGetModel (w.redisGetFails (extractCacheKey (normalizeUrl url))) s
          (extractCacheKey (normalizeUrl url)) = none := by
        simp [cacheGetModel, hfail]
      obtain ⟨hcg1, hcg2⟩ := execDSGo_congr w w2 hyEq hgEq
        (extractCacheKey (normalizeUrl url)) (normalizeUrl url) url orchTools none s s2
      rcases hE1 : execDSGo w (extractCacheKey (normalizeUrl url)) (normalizeUrl url) url
          orchTools none s with ⟨e1, t1, r1⟩
      rcases hE2 : execDSGo w2 (extractCacheKey (normalizeUrl url)) (normalizeUrl url) url
          orchTools none s2 with ⟨e2, t2, r2⟩
      rw [hE1, hE2] at hcg1 hcg2
      simp only at hcg1 hcg2
      subst hcg1
      subst hcg2
      cases e1 with
      | ok out =>
        have hd1 : download w s url = (out, t1, Event.cacheGet
            (extractCacheKey (normalizeUrl url)) :: r1) := by
          rw [download, if_pos hv, hma, hE1]
        have hd2 : download w2 s2 url = (out, t2, Event.cacheGet
            (extractCacheKey (normalizeUrl url)) :: r1) := by
          rw [download, if_pos hv, h2, hE2]
        rw [hd1, hd2]
        exact ⟨rfl, rfl⟩
      | error msg =>
        have hd1 : download w s url = (createErrorResponse msg url, t1, Event.cacheGet
            (extractCacheKey (normalizeUrl url)) :: r1) := by
          rw [download, if_pos hv, hma, hE1]
        have hd2 : download w2 s2 url = (createErrorResponse msg url, t2, Event.cacheGet
            (extractCacheKey (normalizeUrl url)) :: r1) := by
          rw [download, if_pos hv, h2, hE2]
        rw [hd1, hd2]
        exact ⟨rfl, rfl⟩
    · have hd1 : download w s url =
          (createErrorResponse "Invalid Instagram URL. Supported: /p/, /reel(s)/, /stories/."
            url, s, []) := by
        rw [download, if_neg hv]
      have hd2 : download w2 s2 url =
          (createErrorResponse "Invalid Instagram URL. Supported: /p/, /reel(s)/, /stories/."
            url, s2, []) := by
        rw [download, if_neg hv]
      rw [hd1, hd2]
      exact ⟨rfl, rfl⟩
  · intro w s url hv hm hsetF hch hsucc
    rcases hsucc with hys | ⟨hyf, hgs⟩
    · have h1 : (execDSGo w (extractCacheKey (normalizeUrl url)) (normalizeUrl url) url
          orchTools none s).1 =
          .ok { success := true, downloadUrl := (ytExecute w.ytExec).1.downloadUrl,
                cached := false, originalUrl := url } := by
        simp only [execDSGo, orchTools, toolExecute, hch, if_true, hys]
      have h2 : (execDSGo w (extractCacheKey (normalizeUrl url)) (normalizeUrl url) url
          orchTools none s).2.1 = s := by
        simp only [execDSGo, orchTools, toolExecute, hch, if_true, hys, hsetF,
          Bool.false_eq_true, if_false]
      rcases hE : execDSGo w (extractCacheKey (normalizeUrl url)) (normalizeUrl url) url
          orchTools none s with ⟨e, t, r⟩
      rw [hE] at h1 h2
      simp only at h1 h2
      subst h1
      have hd : download w s url =
          ({ success := true, downloadUrl := (ytExecute w.ytExec).1.downloadUrl,
             cached := false, originalUrl := url }, t,
           Event.cacheGet (extractCacheKey (normalizeUrl url)) :: r) := by
        rw [download, if_pos hv, hm, hE]
      rw [hd]
      refine ⟨rfl, rfl, ?_, h2⟩
      rw [if_pos hys]
    · have h1 : (execDSGo w (extractCacheKey (normalizeUrl url)) (normalizeUrl url) url
          orchTools none s).1 =
          .ok { success := true, downloadUrl := (galleryExecute w.galleryExec).1.downloadUrl,
                cached := false, originalUrl := url } := by
        simp only [execDSGo, orchTools, toolExecute, hch, if_true, hyf,
          Bool.false_eq_true, if_false, hgs]
      have h2 : (execDSGo w (extractCacheKey (normalizeUrl url)) (normalizeUrl url) url
          orchTools none s).2.1 = s := by
        simp only [execDSGo, orchTools, toolExecute, hch, if_true, hyf, hgs, hsetF,
          Bool.false_eq_true, if_false]
      rcases hE : execDSGo w (extractCacheKey (normalizeUrl url)) (normalizeUrl url) url
          orchTools none s with ⟨e, t, r⟩
      rw [hE] at h1 h2
      simp only at h1 h2
      subst h1
      have hd : download w s url =
          ({ success := true, downloadUrl := (galleryExecute w.galleryExec).1.downloadUrl,
             cached := false, originalUrl := url }, t,
           Event.cacheGet (extractCacheKey (normalizeUrl url)) :: r) := by
        rw [download, if_pos hv, hm, hE]
      rw [hd]
      refine ⟨rfl, rfl, ?_, h2⟩
      rw [if_neg (by simp [hyf])]

/-- Witness for C10: a read-throwing world behaves like a cache miss,
and a write-throwing world still returns the extracted URL with the
store unchanged. -/
theorem c10_store_faults_absorbed_witness :
    (download { okWorld with redisGetFails := fun _ => true } []
        "https://www.instagram.com/p/ABC123/").1 =
      (download okWorld [] "https://www.instagram.com/p/ABC123/").1 ∧
    (download { okWorld with redisSetOk := false } []
        "https://www.instagram.com/p/ABC123/").1.success = true ∧
    (download { okWorld with redisSetOk := false } []
        "https://www.instagram.com/p/ABC123/").2.1 = [] := by
  have ha := c10_store_faults_absorbed.1 { okWorld with redisGetFails := fun _ => true }
    okWorld [] [] "https://www.instagram.com/p/ABC123/" rfl rfl rfl (by decide)
  have hb := c10_store_faults_absorbed.2 { okWorld with redisSetOk := false } []
    "https://www.instagram.com/p/ABC123/" (by decide) (by decide) rfl (by decide)
    (Or.inl (by decide))
  exact ⟨ha.1, hb.1, hb.2.2.2⟩

end InstaReel
